import Mathlib

/-!
Verification of the a11yassist accessibility core: the color-contrast
analyzer (`ColorContrastAnalyzer`), the ARIA validator (`ARIAValidator`)
and the auditor scanners (`AccessibilityAuditor`).  Machine integers of
the source are modelled as `Int`/`Nat`; JavaScript floating-point
arithmetic is modelled over `ℝ` (the formulas contain a real power
`x ^ 2.4`); a thrown exception is modelled as `Option.none`.
-/

namespace A11y

/-! ## JavaScript string primitives -/

/-- Whitespace for the JavaScript `trim`, `parseInt` and the regex class
`\s`: ASCII blanks plus the Unicode space separators, line separators and
the BOM. -/
def isJsWhitespace (c : Char) : Bool :=
  c = ' ' || c = '\t' || c = '\n' || c = '\r' ||
  c.val = 0x0B || c.val = 0x0C || c.val = 0xA0 || c.val = 0x1680 ||
  (0x2000 ≤ c.val && c.val ≤ 0x200A) ||
  c.val = 0x2028 || c.val = 0x2029 || c.val = 0x202F ||
  c.val = 0x205F || c.val = 0x3000 || c.val = 0xFEFF

/-- JavaScript `String.prototype.trim` on a character list. -/
def jsTrimL (l : List Char) : List Char :=
  ((l.dropWhile isJsWhitespace).reverse.dropWhile isJsWhitespace).reverse

/-- JavaScript `String.prototype.trim`. -/
def jsTrim (s : String) : String := ⟨jsTrimL s.toList⟩

def isAsciiDigit (c : Char) : Bool :=
  let n := c.toNat
  48 ≤ n && n ≤ 57

/-- Value of one hexadecimal digit (code points compared numerically),
`none` for a non-digit. -/
def hexDigitVal (c : Char) : Option Nat :=
  let n := c.toNat
  if 48 ≤ n ∧ n ≤ 57 then some (n - 48)
  else if 97 ≤ n ∧ n ≤ 102 then some (n - 87)
  else if 65 ≤ n ∧ n ≤ 70 then some (n - 55)
  else none

def isHexDigit (c : Char) : Bool := (hexDigitVal c).isSome

/-- Accumulate the value of a maximal leading run of hexadecimal digits. -/
def hexAcc : List Char → Nat → Nat
  | [], acc => acc
  | c :: rest, acc =>
    match hexDigitVal c with
    | some d => hexAcc rest (16 * acc + d)
    | none => acc

/-- Longest hexadecimal-digit prefix of a character list, `none` when the
list does not start with a hexadecimal digit. -/
def parseHexNat (l : List Char) : Option Nat :=
  match l with
  | c :: _ => if isHexDigit c then some (hexAcc l 0) else none
  | [] => none

/-- Strip an optional `0x`/`0X` prefix (the radix-16 prefix accepted by
JavaScript `parseInt`). -/
def strip0x : List Char → List Char
  | '0' :: 'x' :: rest => rest
  | '0' :: 'X' :: rest => rest
  | l => l

/-- JavaScript `parseInt(s, 16)`: skip leading whitespace, read an
optional sign, strip an optional `0x` prefix, then take the longest
hexadecimal-digit prefix; `NaN` (here `none`) when no digit is found. -/
def parseInt16 (l : List Char) : Option Int :=
  match l.dropWhile isJsWhitespace with
  | '-' :: rest => (parseHexNat (strip0x rest)).map (fun n => -(n : Int))
  | '+' :: rest => (parseHexNat (strip0x rest)).map (fun n => (n : Int))
  | rest => (parseHexNat (strip0x rest)).map (fun n => (n : Int))

/-- Accumulate the value of a maximal leading run of decimal digits. -/
def decAcc : List Char → Nat → Nat
  | [], acc => acc
  | c :: rest, acc =>
    if isAsciiDigit c then decAcc rest (10 * acc + (c.toNat - '0'.toNat))
    else acc

/-! ## RGB and color parsing (`ColorContrastAnalyzer.parseColor`) -/

/-- The `RGB` interface of the source.  Fields are integers: JavaScript
`parseInt` applied to a signed hex pair can produce a negative channel,
and an `rgb()` literal can carry any natural number. -/
structure RGB where
  r : Int
  g : Int
  b : Int
deriving DecidableEq, Repr

/-- JavaScript `replace(h, e)` with a one-character needle and empty
replacement: drop the first occurrence of the character. -/
def dropFirstChar (ch : Char) : List Char → List Char
  | [] => []
  | c :: rest => if c = ch then rest else c :: dropFirstChar ch rest

/-- The hex-expansion step of `parseHexColor`: a length-3 string has each
digit duplicated. -/
def expandHex (l : List Char) : List Char :=
  if l.length = 3 then l.flatMap (fun c => [c, c]) else l

/-- `ColorContrastAnalyzer.parseHexColor`: drop the first `#`, expand a
3-character string, require length 6 and parse the three byte pairs with
`parseInt(·, 16)`. -/
def parseHexColor (l : List Char) : Option RGB :=
  let h := expandHex (dropFirstChar '#' l)
  if h.length ≠ 6 then none
  else
    match parseInt16 (h.take 2), parseInt16 ((h.drop 2).take 2),
          parseInt16 ((h.drop 4).take 2) with
    | some r, some g, some b => some ⟨r, g, b⟩
    | _, _, _ => none

/-- One attempt of the regex `rgba?\((\d+),\s*(\d+),\s*(\d+)` at a fixed
position: literal `rgb`, an optional `a`, `(`, then three decimal-digit
runs separated by `,` and `\s*`. -/
def rgbMatchAt (l : List Char) : Option (Nat × Nat × Nat) :=
  if ['r', 'g', 'b'].isPrefixOf l then
    let afterTag :=
      match l.drop 3 with
      | 'a' :: '(' :: rest => some rest
      | '(' :: rest => some rest
      | _ => none
    match afterTag with
    | none => none
    | some rest =>
      let d1 := rest.takeWhile isAsciiDigit
      let rest1 := rest.dropWhile isAsciiDigit
      match d1, rest1 with
      | [], _ => none
      | _, ',' :: rest2 =>
        let rest2 := rest2.dropWhile isJsWhitespace
        let d2 := rest2.takeWhile isAsciiDigit
        let rest3 := rest2.dropWhile isAsciiDigit
        match d2, rest3 with
        | [], _ => none
        | _, ',' :: rest4 =>
          let rest4 := rest4.dropWhile isJsWhitespace
          let d3 := rest4.takeWhile isAsciiDigit
          match d3 with
          | [] => none
          | _ => some (decAcc d1 0, decAcc d2 0, decAcc d3 0)
        | _, _ => none
      | _, _ => none
  else none

/-- Leftmost match of a positional matcher over a character list (the
search performed by `String.prototype.match`). -/
def findFirstOpt {α : Type} (f : List Char → Option α) : List Char → Option α
  | [] => f []
  | c :: rest =>
    match f (c :: rest) with
    | some x => some x
    | none => findFirstOpt f rest

/-- `ColorContrastAnalyzer.parseRgbColor`: first match of
`rgba?\((\d+),\s*(\d+),\s*(\d+)` anywhere in the string. -/
def parseRgbColor (l : List Char) : Option RGB :=
  (findFirstOpt rgbMatchAt l).map (fun t => ⟨(t.1 : Int), (t.2.1 : Int), (t.2.2 : Int)⟩)

/-- The ten named colors of `parseColor`. -/
def namedColors : List (String × RGB) :=
  [("white", ⟨255, 255, 255⟩), ("black", ⟨0, 0, 0⟩), ("red", ⟨255, 0, 0⟩),
   ("green", ⟨0, 128, 0⟩), ("blue", ⟨0, 0, 255⟩), ("yellow", ⟨255, 255, 0⟩),
   ("cyan", ⟨0, 255, 255⟩), ("magenta", ⟨255, 0, 255⟩),
   ("gray", ⟨128, 128, 128⟩), ("grey", ⟨128, 128, 128⟩)]

/-- ASCII lower-casing of a character list (JavaScript `toLowerCase` on
the inputs concerned). -/
def lowerL (l : List Char) : List Char := l.map Char.toLower

/-- The intended-table fragment of `ColorContrastAnalyzer.parseColor`:
trim, then dispatch on a leading `#`, a leading `rgb`, or one of the ten
own entries of the named-color table.  This is the parser's behavior on
every input except the two keys JavaScript resolves through the
prototype chain, which `parseColorJs` below adds on top
(`parseColorJs_rgb_iff` relates the two). -/
def parseColor (color : String) : Option RGB :=
  let cs := jsTrimL color.toList
  if ['#'].isPrefixOf cs then parseHexColor cs
  else if ['r', 'g', 'b'].isPrefixOf cs then parseRgbColor cs
  else namedColors.lookup ⟨lowerL cs⟩

/-- What `parseColor` hands back to its caller in JavaScript: data of a
real color, or the truthy non-color object that the bracket lookup
`namedColors[key]` finds on the prototype chain (`Object.prototype` has
exactly two all-lowercase properties reachable this way, `constructor`
and `__proto__`; every other inherited name contains an uppercase letter
and cannot be produced by `toLowerCase`). -/
inductive ParsedColor
  | rgb (c : RGB)
  | junk
deriving DecidableEq, Repr

/-- `ColorContrastAnalyzer.parseColor` with JavaScript bracket-lookup
semantics: the named-color branch is `namedColors[key] || null`, and a
miss on the own entries still finds the inherited truthy values at key
`constructor` or `__proto__`, so those inputs parse to a non-color
object instead of null. -/
def parseColorJs (color : String) : Option ParsedColor :=
  let cs := jsTrimL color.toList
  if ['#'].isPrefixOf cs then (parseHexColor cs).map ParsedColor.rgb
  else if ['r', 'g', 'b'].isPrefixOf cs then (parseRgbColor cs).map ParsedColor.rgb
  else
    match namedColors.lookup ⟨lowerL cs⟩ with
    | some rgb => some (ParsedColor.rgb rgb)
    | none =>
      if (⟨lowerL cs⟩ : String) = "constructor" ∨ (⟨lowerL cs⟩ : String) = "__proto__"
      then some ParsedColor.junk
      else none

/-! ## Contrast mathematics (`ColorContrastAnalyzer`) -/

/-- WCAG 2.1 contrast-ratio thresholds of the source. -/
def WCAG_AA_NORMAL : ℝ := 4.5
def WCAG_AA_LARGE : ℝ := 3.0
def WCAG_AAA_NORMAL : ℝ := 7.0
def WCAG_AAA_LARGE : ℝ := 4.5

/-- Per-channel linearisation of `getRelativeLuminance`: `cs = c/255`;
`cs/12.92` when `cs ≤ 0.03928`, else `((cs+0.055)/1.055) ^ 2.4` (a real
power). -/
noncomputable def channelLin (c : Int) : ℝ :=
  let cs : ℝ := (c : ℝ) / 255
  if cs ≤ 0.03928 then cs / 12.92 else ((cs + 0.055) / 1.055) ^ (2.4 : ℝ)

/-- `ColorContrastAnalyzer.getRelativeLuminance`. -/
noncomputable def getRelativeLuminance (rgb : RGB) : ℝ :=
  0.2126 * channelLin rgb.r + 0.7152 * channelLin rgb.g + 0.0722 * channelLin rgb.b

/-- `ColorContrastAnalyzer.calculateContrastRatio`:
`(Lmax + 0.05) / (Lmin + 0.05)`. -/
noncomputable def calculateContrastRatio (rgb1 rgb2 : RGB) : ℝ :=
  let l1 := getRelativeLuminance rgb1
  let l2 := getRelativeLuminance rgb2
  (max l1 l2 + 0.05) / (min l1 l2 + 0.05)

/-- JavaScript `Math.round(x * 100) / 100` (`Math.round` is
`⌊x + 1/2⌋`, as is Mathlib's `round` on `ℝ`). -/
noncomputable def roundTo2 (x : ℝ) : ℝ := ((round (x * 100) : ℤ) : ℝ) / 100

/-- The `ColorContrastResult` interface.  The four pass/fail booleans of
the source are modelled as propositions (real-number comparisons). -/
structure ColorContrastResult where
  foreground : String
  background : String
  contrastRatio : ℝ
  passesAA : Prop
  passesAAA : Prop
  passesAALarge : Prop
  passesAAALarge : Prop

/-- `ColorContrastAnalyzer.analyzeContrast`; the thrown
`Invalid color format` error is `none`. -/
noncomputable def analyzeContrast (foreground background : String) :
    Option ColorContrastResult :=
  match parseColor foreground, parseColor background with
  | some fgRgb, some bgRgb =>
    let contrastRatio := calculateContrastRatio fgRgb bgRgb
    some { foreground := foreground
           background := background
           contrastRatio := roundTo2 contrastRatio
           passesAA := contrastRatio ≥ WCAG_AA_NORMAL
           passesAAA := contrastRatio ≥ WCAG_AAA_NORMAL
           passesAALarge := contrastRatio ≥ WCAG_AA_LARGE
           passesAAALarge := contrastRatio ≥ WCAG_AAA_LARGE }
  | _, _ => none

/-- Outcome of `analyzeContrast` under JavaScript semantics: the thrown
error, a normal result, or the result produced when a prototype-chain
lookup slipped a truthy non-color object past the
`if (!fgRgb || !bgRgb) throw` guard — then `.r`/`.g`/`.b` are
`undefined`, `undefined / 255` is `NaN`, `NaN` propagates through every
luminance, ratio and rounding operation, and each `NaN >= threshold`
comparison is false, so the result echoes the two input strings, carries
`NaN` (a float with no counterpart in `ℝ`) in `contrastRatio`, and has
all four flags false; the `nanResult` constructor records exactly that
shape. -/
inductive ContrastOutcome
  | error
  | nanResult (foreground background : String)
  | ok (res : ColorContrastResult)

/-- `ColorContrastAnalyzer.analyzeContrast` with JavaScript semantics:
parse both colors with `parseColorJs`; a null parse throws, a pair of
real colors computes the usual result, and any prototype-chain junk
value flows through the arithmetic as `NaN`. -/
noncomputable def analyzeContrastJs (foreground background : String) :
    ContrastOutcome :=
  match parseColorJs foreground, parseColorJs background with
  | none, _ => ContrastOutcome.error
  | _, none => ContrastOutcome.error
  | some (ParsedColor.rgb fgRgb), some (ParsedColor.rgb bgRgb) =>
    let contrastRatio := calculateContrastRatio fgRgb bgRgb
    ContrastOutcome.ok
      { foreground := foreground
        background := background
        contrastRatio := roundTo2 contrastRatio
        passesAA := contrastRatio ≥ WCAG_AA_NORMAL
        passesAAA := contrastRatio ≥ WCAG_AAA_NORMAL
        passesAALarge := contrastRatio ≥ WCAG_AA_LARGE
        passesAAALarge := contrastRatio ≥ WCAG_AAA_LARGE }
  | some _, some _ => ContrastOutcome.nanResult foreground background

/-! ## ARIA validator (`ARIAValidator`) -/

/-- Printable apostrophe, built from its code point so that recommendation
strings can quote attribute names the way the source does. -/
def sq : String := ⟨[Char.ofNat 39]⟩

/-- `ARIAValidator.VALID_ROLES` (verbatim, duplicates included). -/
def VALID_ROLES : List String :=
  ["article", "columnheader", "definition", "directory", "document",
   "feed", "figure", "group", "heading", "img", "list", "listitem",
   "math", "none", "note", "presentation", "region", "row",
   "rowgroup", "rowheader", "separator", "table", "term", "toolbar",
   "tooltip",
   "banner", "complementary", "contentinfo", "form", "main",
   "navigation", "region", "search",
   "alert", "alertdialog", "button", "checkbox", "dialog", "gridcell",
   "link", "log", "marquee", "menuitem", "menuitemcheckbox",
   "menuitemradio", "option", "progressbar", "radio", "scrollbar",
   "searchbox", "slider", "spinbutton", "status", "switch", "tab",
   "tabpanel", "textbox", "timer", "tooltip", "treeitem",
   "combobox", "grid", "listbox", "menu", "menubar", "radiogroup",
   "tablist", "tree", "treegrid"]

/-- Value-type tags of `ARIA_PROPERTIES`. -/
inductive AriaType
  | boolean | tristate | str | token | tokenlist | integer | number
deriving DecidableEq, Repr

/-- One `ARIA_PROPERTIES` entry: value type and optional allowed-value
list (the unused human-readable `description` field is omitted). -/
structure AriaProperty where
  type : AriaType
  allowedValues : Option (List String)
deriving DecidableEq, Repr

/-- `ARIAValidator.ARIA_PROPERTIES` (verbatim key and value data). -/
def ARIA_PROPERTIES : List (String × AriaProperty) :=
  [("aria-activedescendant", ⟨AriaType.str, none⟩),
   ("aria-atomic", ⟨AriaType.boolean, none⟩),
   ("aria-autocomplete", ⟨AriaType.token, some ["none", "inline", "list", "both"]⟩),
   ("aria-busy", ⟨AriaType.boolean, none⟩),
   ("aria-checked", ⟨AriaType.tristate, some ["true", "false", "mixed"]⟩),
   ("aria-controls", ⟨AriaType.tokenlist, none⟩),
   ("aria-current", ⟨AriaType.token,
      some ["page", "step", "location", "date", "time", "true", "false"]⟩),
   ("aria-describedby", ⟨AriaType.tokenlist, none⟩),
   ("aria-details", ⟨AriaType.tokenlist, none⟩),
   ("aria-disabled", ⟨AriaType.boolean, none⟩),
   ("aria-expanded", ⟨AriaType.boolean, none⟩),
   ("aria-haspopup", ⟨AriaType.token,
      some ["false", "true", "menu", "listbox", "tree", "grid", "dialog"]⟩),
   ("aria-hidden", ⟨AriaType.boolean, none⟩),
   ("aria-invalid", ⟨AriaType.token, some ["false", "true", "grammar", "spelling"]⟩),
   ("aria-label", ⟨AriaType.str, none⟩),
   ("aria-labelledby", ⟨AriaType.tokenlist, none⟩),
   ("aria-level", ⟨AriaType.integer, none⟩),
   ("aria-live", ⟨AriaType.token, some ["off", "polite", "assertive"]⟩),
   ("aria-modal", ⟨AriaType.boolean, none⟩),
   ("aria-multiline", ⟨AriaType.boolean, none⟩),
   ("aria-multiselectable", ⟨AriaType.boolean, none⟩),
   ("aria-orientation", ⟨AriaType.token, some ["horizontal", "vertical", "undefined"]⟩),
   ("aria-placeholder", ⟨AriaType.str, none⟩),
   ("aria-pressed", ⟨AriaType.tristate, some ["true", "false", "mixed"]⟩),
   ("aria-readonly", ⟨AriaType.boolean, none⟩),
   ("aria-required", ⟨AriaType.boolean, none⟩),
   ("aria-selected", ⟨AriaType.boolean, none⟩),
   ("aria-valuemax", ⟨AriaType.number, none⟩),
   ("aria-valuemin", ⟨AriaType.number, none⟩),
   ("aria-valuenow", ⟨AriaType.number, none⟩),
   ("aria-valuetext", ⟨AriaType.str, none⟩)]

/-- The `ARIAValidationResult` interface (the source field named
`attribute` is rendered `attr`; `attribute` is a Lean keyword). -/
structure ARIAValidationResult where
  isValid : Bool
  attr : String
  value : String
  allowedValues : Option (List String)
  recommendation : Option String
deriving DecidableEq, Repr

/-- ASCII lower-casing of a string. -/
def lowerStr (s : String) : String := ⟨lowerL s.toList⟩

/-- `ARIAValidator.validateRole`. -/
def validateRole (role : String) : ARIAValidationResult :=
  let isValid := VALID_ROLES.contains role
  { isValid := isValid
    attr := "role"
    value := role
    allowedValues := some VALID_ROLES
    recommendation :=
      if isValid then none
      else some (sq ++ role ++ sq ++
        " is not a valid ARIA role. Use one of the standard WAI-ARIA roles.") }

/-- `ARIAValidator.validateBooleanValue`. -/
def validateBooleanValue (attr value : String) (allowedValues : Option (List String)) :
    ARIAValidationResult :=
  let validValues := allowedValues.getD ["true", "false"]
  let isValid := validValues.contains (lowerStr value)
  { isValid := isValid
    attr := attr
    value := value
    allowedValues := some validValues
    recommendation :=
      if isValid then none
      else some ("Value must be one of: " ++ String.intercalate ", " validValues) }

/-- `ARIAValidator.validateTristateValue`. -/
def validateTristateValue (attr value : String) : ARIAValidationResult :=
  let validValues := ["true", "false", "mixed"]
  let isValid := validValues.contains (lowerStr value)
  { isValid := isValid
    attr := attr
    value := value
    allowedValues := some validValues
    recommendation :=
      if isValid then none
      else some ("Value must be one of: " ++ String.intercalate ", " validValues) }

/-- `ARIAValidator.validateTokenValue`. -/
def validateTokenValue (attr value : String) (allowedValues : List String) :
    ARIAValidationResult :=
  let isValid := allowedValues.contains (lowerStr value)
  { isValid := isValid
    attr := attr
    value := value
    allowedValues := some allowedValues
    recommendation :=
      if isValid then none
      else some ("Value must be one of: " ++ String.intercalate ", " allowedValues) }

/-- Splitting of a character list at `\s+` runs, with a structural fuel
argument (the fuel, instantiated with the list length, always
suffices: every step drops at least one character). -/
def splitWsAux : Nat → List Char → List (List Char)
  | 0, _ => [[]]
  | _ + 1, [] => [[]]
  | fuel + 1, c :: rest =>
    if isJsWhitespace c then [] :: splitWsAux fuel (rest.dropWhile isJsWhitespace)
    else
      match splitWsAux fuel rest with
      | h :: t => (c :: h) :: t
      | [] => [[c]]

/-- JavaScript `split(/\s+/)` applied to an already-trimmed string; an
empty input yields the single empty token. -/
def splitWsRuns (l : List Char) : List (List Char) := splitWsAux l.length l

def isAsciiLetter (c : Char) : Bool :=
  let n := c.toNat
  (97 ≤ n && n ≤ 122) || (65 ≤ n && n ≤ 90)

def isWordChar (c : Char) : Bool :=
  isAsciiLetter c || isAsciiDigit c || c = '_'

/-- The identifier regex `^[a-zA-Z][\w\-:.]*$` of
`validateTokenListValue`. -/
def isIdentToken (l : List Char) : Bool :=
  match l with
  | [] => false
  | c :: rest =>
    isAsciiLetter c &&
    rest.all (fun d => isWordChar d || d = '-' || d = ':' || d = '.')

/-- `ARIAValidator.validateTokenListValue`. -/
def validateTokenListValue (attr value : String) : ARIAValidationResult :=
  let tokens := splitWsRuns (jsTrimL value.toList)
  let isValid := tokens.all isIdentToken
  { isValid := isValid
    attr := attr
    value := value
    allowedValues := none
    recommendation :=
      if isValid then none
      else some "Value must be a space-separated list of valid ID references" }

/-- The integer regex `^-?\d+$` of `validateIntegerValue`. -/
def isIntegerLiteral (l : List Char) : Bool :=
  match l with
  | '-' :: rest => rest ≠ [] && rest.all isAsciiDigit
  | rest => rest ≠ [] && rest.all isAsciiDigit

/-- `ARIAValidator.validateIntegerValue`. -/
def validateIntegerValue (attr value : String) : ARIAValidationResult :=
  let isValid := isIntegerLiteral value.toList
  { isValid := isValid
    attr := attr
    value := value
    allowedValues := none
    recommendation := if isValid then none else some "Value must be an integer" }

/-- Success of JavaScript `parseFloat`: after leading whitespace and an
optional sign, a digit, a dot followed by a digit, or an `Infinity`
literal must follow. -/
def parseFloatSucceeds (l : List Char) : Bool :=
  let rest := l.dropWhile isJsWhitespace
  let rest := match rest with
    | '-' :: r => r
    | '+' :: r => r
    | r => r
  match rest with
  | c :: r =>
    isAsciiDigit c || (c = '.' && (r.head?.map isAsciiDigit).getD false) ||
    "Infinity".toList.isPrefixOf (c :: r)
  | [] => false

/-- `ARIAValidator.validateNumberValue` (`!isNaN(parseFloat(value))`). -/
def validateNumberValue (attr value : String) : ARIAValidationResult :=
  let isValid := parseFloatSucceeds value.toList
  { isValid := isValid
    attr := attr
    value := value
    allowedValues := none
    recommendation := if isValid then none else some "Value must be a valid number" }

/-- `ARIAValidator.validateStringValue`. -/
def validateStringValue (attr value : String) : ARIAValidationResult :=
  let isValid := (jsTrim value).length > 0
  { isValid := isValid
    attr := attr
    value := value
    allowedValues := none
    recommendation :=
      if isValid then none else some "Value must be a non-empty string" }

/-- `ARIAValidator.validateAttribute`: require the `aria-` front matter,
look the name up in `ARIA_PROPERTIES`, and dispatch on the value type. -/
def validateAttribute (attributeName value : String) : ARIAValidationResult :=
  if ¬ ("aria-".toList.isPrefixOf attributeName.toList) then
    { isValid := false
      attr := attributeName
      value := value
      allowedValues := none
      recommendation := some "Attribute name must start with \"aria-\"" }
  else
    match ARIA_PROPERTIES.lookup attributeName with
    | none =>
      { isValid := false
        attr := attributeName
        value := value
        allowedValues := none
        recommendation :=
          some (sq ++ attributeName ++ sq ++ " is not a valid ARIA attribute") }
    | some property =>
      match property.type with
      | AriaType.boolean => validateBooleanValue attributeName value property.allowedValues
      | AriaType.tristate => validateTristateValue attributeName value
      | AriaType.token => validateTokenValue attributeName value (property.allowedValues.getD [])
      | AriaType.tokenlist => validateTokenListValue attributeName value
      | AriaType.integer => validateIntegerValue attributeName value
      | AriaType.number => validateNumberValue attributeName value
      | AriaType.str => validateStringValue attributeName value

/-! ## Accessible-color suggestion (`suggestAccessibleColor`) -/

/-- `ColorContrastAnalyzer.adjustLightness`: scale each channel by
`lightness / 100` with `Math.round` and print an `rgb(r, g, b)`
literal; an unparseable color is returned unchanged. -/
noncomputable def adjustLightness (color : String) (lightness : ℝ) : String :=
  match parseColor color with
  | none => color
  | some rgb =>
    let factor : ℝ := lightness / 100
    let r := round ((rgb.r : ℝ) * factor)
    let g := round ((rgb.g : ℝ) * factor)
    let b := round ((rgb.b : ℝ) * factor)
    "rgb(" ++ toString r ++ ", " ++ toString g ++ ", " ++ toString b ++ ")"

/-- The lightness values visited by the `for` loop of
`suggestAccessibleColor`: `0, 5, 10, …, 100`. -/
def lightnessSteps : List ℝ := (List.range 21).map (fun i => ((5 * i : ℕ) : ℝ))

/-- The body of the `for` loop of `suggestAccessibleColor`: return the
first adjusted color that parses and meets the target ratio. -/
noncomputable def suggestLoop (originalColor : String) (bgRgb : RGB)
    (targetRatio : ℝ) : List ℝ → Option String
  | [] => none
  | lightness :: rest =>
    let testColor := adjustLightness originalColor lightness
    match parseColor testColor with
    | some testRgb =>
      if calculateContrastRatio testRgb bgRgb ≥ targetRatio then some testColor
      else suggestLoop originalColor bgRgb targetRatio rest
    | none => suggestLoop originalColor bgRgb targetRatio rest

/-- `ColorContrastAnalyzer.suggestAccessibleColor`: `none` when the
background fails to parse, otherwise the loop result or the black/white
fallback chosen by the background luminance. -/
noncomputable def suggestAccessibleColor (originalColor backgroundColor : String)
    (targetRatio : ℝ) : Option String :=
  match parseColor backgroundColor with
  | none => none
  | some bgRgb =>
    let bgLuminance := getRelativeLuminance bgRgb
    match suggestLoop originalColor bgRgb targetRatio lightnessSteps with
    | some c => some c
    | none => some (if bgLuminance > 0.5 then "#000000" else "#FFFFFF")

section
open Classical

/-- Modelled from the spec wording of the scan (for comparison with the
loop of the source): the first scaled color in the lightness scan whose
ratio against the background meets the target. -/
noncomputable def suggestSpecScan (originalColor : String) (bgRgb : RGB)
    (targetRatio : ℝ) : Option String :=
  (lightnessSteps.map (adjustLightness originalColor)).find?
    (fun c => decide (∃ rgb, parseColor c = some rgb ∧
      calculateContrastRatio rgb bgRgb ≥ targetRatio))

end

/-! ## Issue records and the markup scanner (`AccessibilityAuditor`) -/

/-- The `IssueType` enumeration of the source. -/
inductive IssueType
  | missingAltText | missingAriaLabel | invalidAriaAttribute
  | lowColorContrast | missingFormLabel | missingHeadingStructure
  | missingLangAttribute | keyboardTrap | missingFocusIndicator
  | improperTabIndex | missingRole | redundantTitle
  | emptyLink | emptyButton
deriving DecidableEq, Repr

/-- The `AccessibilitySeverity` enumeration. -/
inductive Severity
  | critical | serious | moderate | minor
deriving DecidableEq, Repr

/-- The `WCAGLevel` enumeration. -/
inductive WCAGLevel
  | A | AA | AAA
deriving DecidableEq, Repr

/-- An accessibility issue: the classification and location fields of the
source's `AccessibilityIssue` (the purely textual `message`,
`description`, `code`, `suggestion`, `documentation`, `filePath` and
`id` fields carry no audit logic and are omitted). -/
structure Issue where
  type : IssueType
  severity : Severity
  wcagLevel : WCAGLevel
  line : Nat
  column : Int
deriving DecidableEq, Repr

/-- A predicate holds on some suffix of the list: the search a JavaScript
regex `test` performs. -/
def existsSuffix (p : List Char → Bool) : List Char → Bool
  | [] => p []
  | c :: rest => p (c :: rest) || existsSuffix p rest

/-- The regex fragment `\s*=`: optional whitespace then an equals sign. -/
def wsEqAfter : List Char → Bool
  | [] => false
  | c :: r => if c = '=' then true else if isJsWhitespace c then wsEqAfter r else false

/-- JavaScript `indexOf` of a literal substring, `-1` when absent. -/
def indexOfAux (pat : List Char) : List Char → Option Nat
  | [] => if pat = [] then some 0 else none
  | c :: rest =>
    if pat.isPrefixOf (c :: rest) then some 0
    else (indexOfAux pat rest).map (· + 1)

def indexOfLit (pat l : List Char) : Int :=
  match indexOfAux pat l with
  | some n => (n : Int)
  | none => -1

/-- Test of `lit` followed by `\s*=` somewhere in the line (the shape of
`alt\s*=`, `id\s*=`, `aria-label\s*=`, `lang\s*=` …). -/
def testLitWsEq (lit : List Char) (l : List Char) : Bool :=
  existsSuffix (fun s => lit.isPrefixOf s && wsEqAfter (s.drop lit.length)) l

/-- Test of `lit` followed by one `\s` character (the shape of `<img\s`,
`<input\s`). -/
def testLitWs (lit : List Char) (l : List Char) : Bool :=
  existsSuffix (fun s =>
    lit.isPrefixOf s && ((s.drop lit.length).head?.map isJsWhitespace).getD false) l

/-- Drop through the first `>` (the `[^>]*>` step of a regex: everything
before the first `>` is automatically in `[^>]`). -/
def afterFirstGt : List Char → Option (List Char)
  | [] => none
  | c :: r => if c = '>' then some r else afterFirstGt r

/-- The regex fragment `\s*lit` with backtracking: some run of whitespace
followed by the literal. -/
def wsThenLit (pat : List Char) : List Char → Bool
  | [] => pat.isPrefixOf []
  | c :: r => pat.isPrefixOf (c :: r) || (isJsWhitespace c && wsThenLit pat r)

/-- `/<button[^>]*>(\s*)<\/button>/`. -/
def testEmptyButton (l : List Char) : Bool :=
  existsSuffix (fun s =>
    "<button".toList.isPrefixOf s &&
    (match afterFirstGt (s.drop 7) with
     | some r => wsThenLit "</button>".toList r
     | none => false)) l

/-- `/<a\s[^>]*>(\s*)<\/a>/`. -/
def testEmptyLink (l : List Char) : Bool :=
  existsSuffix (fun s =>
    "<a".toList.isPrefixOf s &&
    ((s.drop 2).head?.map isJsWhitespace).getD false &&
    (match afterFirstGt (s.drop 3) with
     | some r => wsThenLit "</a>".toList r
     | none => false)) l

def isQuoteChar (c : Char) : Bool := c = '"' || c = Char.ofNat 39

/-- One attempt of `/tabindex\s*=\s*["'](\d+)["']/` at a fixed position:
the captured digit run, when the match succeeds. -/
def tabindexAt (l : List Char) : Option (List Char) :=
  if "tabindex".toList.isPrefixOf l then
    match (l.drop 8).dropWhile isJsWhitespace with
    | '=' :: r2 =>
      match r2.dropWhile isJsWhitespace with
      | q :: r4 =>
        if isQuoteChar q then
          let ds := r4.takeWhile isAsciiDigit
          match r4.dropWhile isAsciiDigit with
          | q2 :: _ => if isQuoteChar q2 && ds ≠ [] then some ds else none
          | [] => none
        else none
      | [] => none
    | _ => none
  else none

/-- One attempt of `/aria-[\w-]+\s*=\s*["']([^"']*)["']/` at a fixed
position, yielding the full matched text, the attribute name
(`fullMatch.split('=')[0].trim()`) and the captured value. -/
def ariaAttrAt (l : List Char) : Option (List Char × String × String) :=
  if "aria-".toList.isPrefixOf l then
    let w := (l.drop 5).takeWhile (fun c => isWordChar c || c = '-')
    if w = [] then none
    else
      let afterW := (l.drop 5).dropWhile (fun c => isWordChar c || c = '-')
      let ws1 := afterW.takeWhile isJsWhitespace
      match afterW.dropWhile isJsWhitespace with
      | '=' :: r2 =>
        let ws2 := r2.takeWhile isJsWhitespace
        match r2.dropWhile isJsWhitespace with
        | q :: r4 =>
          if isQuoteChar q then
            let v := r4.takeWhile (fun c => ¬ isQuoteChar c)
            match r4.dropWhile (fun c => ¬ isQuoteChar c) with
            | q2 :: _ =>
              let full := "aria-".toList ++ w ++ ws1 ++ ['='] ++ ws2 ++ [q] ++ v ++ [q2]
              some (full, ⟨jsTrimL (full.takeWhile (· ≠ '='))⟩, ⟨v⟩)
            | [] => none
          else none
        | [] => none
      | _ => none
  else none

/-- Scanner for all `aria-*="…"` matches, with a structural fuel
argument (every step consumes at least one character, so the list
length is enough fuel). -/
def ariaMatchesAux : Nat → List Char → List (List Char × String × String)
  | 0, _ => []
  | _ + 1, [] => []
  | fuel + 1, c :: rest =>
    match ariaAttrAt (c :: rest) with
    | some m => m :: ariaMatchesAux fuel (rest.drop (m.1.length - 1))
    | none => ariaMatchesAux fuel rest

/-- All (non-overlapping, left-to-right) matches of the `aria-*="…"`
regex in a line, as by `String.prototype.matchAll`. -/
def ariaMatchesFrom (l : List Char) : List (List Char × String × String) :=
  ariaMatchesAux l.length l

/-- One attempt of `/role\s*=\s*["']([^"']*)["']/` at a fixed position:
the captured value. -/
def roleAt (l : List Char) : Option String :=
  if "role".toList.isPrefixOf l then
    match (l.drop 4).dropWhile isJsWhitespace with
    | '=' :: r2 =>
      match r2.dropWhile isJsWhitespace with
      | q :: r4 =>
        if isQuoteChar q then
          let v := r4.takeWhile (fun c => ¬ isQuoteChar c)
          match r4.dropWhile (fun c => ¬ isQuoteChar c) with
          | _ :: _ => some ⟨v⟩
          | [] => none
        else none
      | [] => none
    | _ => none
  else none

/-- The per-line checks of `AccessibilityAuditor.auditHTML`, in source
order. -/
def auditHTMLLine (lineIndex : Nat) (line : List Char) : List Issue :=
  (if testLitWs "<img".toList line && ! testLitWsEq "alt".toList line then
    [⟨IssueType.missingAltText, Severity.critical, WCAGLevel.A, lineIndex,
      indexOfLit "<img".toList line⟩]
   else []) ++
  (if testLitWs "<input".toList line &&
      ! (testLitWsEq "aria-label".toList line ||
         testLitWsEq "aria-labelledby".toList line ||
         testLitWsEq "id".toList line) then
    [⟨IssueType.missingFormLabel, Severity.serious, WCAGLevel.A, lineIndex,
      indexOfLit "<input".toList line⟩]
   else []) ++
  (if testEmptyButton line then
    [⟨IssueType.emptyButton, Severity.critical, WCAGLevel.A, lineIndex,
      indexOfLit "<button".toList line⟩]
   else []) ++
  (if testEmptyLink line then
    [⟨IssueType.emptyLink, Severity.serious, WCAGLevel.A, lineIndex,
      indexOfLit "<a".toList line⟩]
   else []) ++
  (match findFirstOpt tabindexAt line with
   | some ds =>
     if decAcc ds 0 > 0 then
       [⟨IssueType.improperTabIndex, Severity.moderate, WCAGLevel.A, lineIndex,
         indexOfLit "tabindex".toList line⟩]
     else []
   | none => []) ++
  ((ariaMatchesFrom line).filterMap (fun m =>
    if (validateAttribute m.2.1 m.2.2).isValid then none
    else some ⟨IssueType.invalidAriaAttribute, Severity.serious, WCAGLevel.A,
      lineIndex, indexOfLit m.1 line⟩)) ++
  (match findFirstOpt roleAt line with
   | some role =>
     if (validateRole role).isValid then []
     else
       [⟨IssueType.missingRole, Severity.serious, WCAGLevel.A, lineIndex,
         indexOfLit "role".toList line⟩]
   | none => [])

/-- JavaScript `split('\n')` on a character list. -/
def splitOnNl : List Char → List (List Char)
  | [] => [[]]
  | c :: r =>
    if c = '\n' then [] :: splitOnNl r
    else
      match splitOnNl r with
      | h :: t => (c :: h) :: t
      | [] => [[c]]

/-- `/<html[^>]*>/`. -/
def testHtmlOpen (l : List Char) : Bool :=
  existsSuffix (fun s => "<html".toList.isPrefixOf s && (s.drop 5).any (· = '>')) l

/-- The `[^>]*lang\s*=` continuation of the guard regex, scanned with
backtracking. -/
def scanTagLang : List Char → Bool
  | [] => false
  | c :: r =>
    ("lang".toList.isPrefixOf (c :: r) && wsEqAfter ((c :: r).drop 4)) ||
    (c ≠ '>' && scanTagLang r)

/-- `/<html[^>]*lang\s*=/`. -/
def testHtmlLang (l : List Char) : Bool :=
  existsSuffix (fun s => "<html".toList.isPrefixOf s && scanTagLang (s.drop 5)) l

/-- `AccessibilityAuditor.auditHTML`: the per-line checks over
`split('\n')`, then the whole-document missing-`lang` check, reported at
line 0, column 0. -/
def auditHTML (text : List Char) : List Issue :=
  ((splitOnNl text).enum.flatMap (fun p => auditHTMLLine p.1 p.2)) ++
  (if testHtmlOpen text && ! testHtmlLang text then
    [⟨IssueType.missingLangAttribute, Severity.serious, WCAGLevel.A, 0, 0⟩]
   else [])

/-! ## Stylesheet scanner (`extractColorPairs`, `auditCSS`) -/

/-- Case-insensitive literal prefix test (the `i` flag of the CSS
regexes). -/
def caselessPrefix : List Char → List Char → Bool
  | [], _ => true
  | _ :: _, [] => false
  | p :: ps, c :: cs => (Char.toLower c = p) && caselessPrefix ps cs

/-- The `\s*:\s*([^;]+)` tail of the two declaration regexes, tried after
the property word: optional whitespace, a colon, then a nonempty run up
to the first `;`.  The run includes the whitespace consumed by the
second `\s*`; since the scanner stores `match[1].trim()`, trimming the
run yields exactly the stored value (backtracking of `\s*` against
`[^;]+` only moves whitespace between the two, which trimming
collapses). -/
def afterKeyRun : List Char → Option (List Char)
  | [] => none
  | c :: r =>
    if c = ':' then
      let run := r.takeWhile (fun d => d != ';')
      if run.isEmpty then none else some run
    else if isJsWhitespace c then afterKeyRun r
    else none

/-- One attempt of `/color\s*:\s*([^;]+)/i` at a fixed position. -/
def colorCaptureAt (l : List Char) : Option (List Char) :=
  if caselessPrefix "color".toList l then afterKeyRun (l.drop 5) else none

/-- One attempt of `/background(?:-color)?\s*:\s*([^;]+)/i` at a fixed
position (the optional group is tried greedily first). -/
def bgCaptureAt (l : List Char) : Option (List Char) :=
  if caselessPrefix "background".toList l then
    match (if caselessPrefix "-color".toList (l.drop 10) then
             afterKeyRun (l.drop 16)
           else none) with
    | some run => some run
    | none => afterKeyRun (l.drop 10)
  else none

/-- A captured foreground/background pair of `extractColorPairs`. -/
structure ColorPair where
  line : Nat
  foreground : Option String
  background : Option String
  code : String
deriving DecidableEq, Repr

/-- JavaScript truthiness of a `string | undefined` variable:
`undefined` and the empty string are falsy, every other string truthy. -/
def jsTruthy : Option String → Bool
  | none => false
  | some s => s != ""

/-- The `forEach` body of `extractColorPairs`, threading the mutable
`currentFg`/`currentBg`/`ruleStartLine` state through the line list.
The push guard `(currentFg || currentBg)` of the source is JavaScript
truthiness, so a captured value that trims to the empty string does not
trigger a push. -/
def cpLoop (lines : List (List Char)) :
    List (Nat × List Char) → Option String × Option String × Nat → List ColorPair
  | [], _ => []
  | (index, line) :: rest, (fg0, bg0, rs0) =>
    let st1 : Option String × Option String × Nat :=
      if line.any (· = '{') then (none, none, index) else (fg0, bg0, rs0)
    let fg2 : Option String :=
      match findFirstOpt colorCaptureAt line with
      | some run => some ⟨jsTrimL run⟩
      | none => st1.1
    let bg2 : Option String :=
      match findFirstOpt bgCaptureAt line with
      | some run => some ⟨jsTrimL run⟩
      | none => st1.2.1
    let rs1 := st1.2.2
    (if line.any (· = '}') && (jsTruthy fg2 || jsTruthy bg2) then
      [⟨rs1, fg2, bg2,
        String.intercalate "\n"
          (((lines.drop rs1).take (index + 1 - rs1)).map (fun cs => (⟨cs⟩ : String)))⟩]
     else []) ++ cpLoop lines rest (fg2, bg2, rs1)

/-- `AccessibilityAuditor.extractColorPairs`. -/
def extractColorPairs (css : List Char) : List ColorPair :=
  let lines := splitOnNl css
  cpLoop lines lines.enum (none, none, 0)

/-- A `low-color-contrast` issue of `auditCSS`: classification and
location fields plus the ratio interpolated into the message. -/
structure CSSIssue where
  type : IssueType
  severity : Severity
  wcagLevel : WCAGLevel
  line : Nat
  column : Int
  code : String
  contrastRatio : ℝ

section
open Classical

/-- `AccessibilityAuditor.auditCSS`: analyze each captured pair whose
two colors are both truthy (the guard `pair.foreground &&
pair.background` requires present and nonempty), swallowing parse
failures, and emit a `low-color-contrast` issue when the result fails
AA. -/
noncomputable def auditCSS (css : List Char) : List CSSIssue :=
  (extractColorPairs css).filterMap (fun pair =>
    match pair.foreground, pair.background with
    | some fg, some bg =>
      if fg = "" ∨ bg = "" then none
      else
        match analyzeContrast fg bg with
        | some result =>
          if result.passesAA then none
          else some ⟨IssueType.lowColorContrast, Severity.serious, WCAGLevel.AA,
            pair.line, 0, pair.code, result.contrastRatio⟩
        | none => none
    | _, _ => none)

end

/-! ## Shared computation lemmas -/

lemma channelLin_255 : channelLin 255 = 1 := by
  rw [channelLin]; norm_num

lemma channelLin_0 : channelLin 0 = 0 := by
  rw [channelLin]; norm_num

lemma lum_white : getRelativeLuminance ⟨255, 255, 255⟩ = 1 := by
  rw [getRelativeLuminance]; norm_num [channelLin_255]

lemma lum_black : getRelativeLuminance ⟨0, 0, 0⟩ = 0 := by
  rw [getRelativeLuminance]; norm_num [channelLin_0]

lemma ratio_white_black : calculateContrastRatio ⟨255, 255, 255⟩ ⟨0, 0, 0⟩ = 21 := by
  rw [calculateContrastRatio, lum_white, lum_black]; norm_num

lemma roundTo2_21 : roundTo2 21 = 21 := by
  rw [roundTo2, show (21 : ℝ) * 100 = ((2100 : ℤ) : ℝ) by norm_num, round_intCast]
  norm_num

/-! ## C1 -/

/-- C1: `analyzeContrast "#FFFFFF" "#000000"` returns a result whose
`contrastRatio` is exactly 21 with all four WCAG pass flags true, the
relative luminances of white and black being 1 and 0 under the WCAG 2.1
per-channel formula embedded in `channelLin`/`getRelativeLuminance`. -/
theorem C1_white_on_black_ratio_21 :
    ∃ res, analyzeContrast "#FFFFFF" "#000000" = some res ∧
      res.contrastRatio = 21 ∧
      res.passesAA ∧ res.passesAAA ∧ res.passesAALarge ∧ res.passesAAALarge ∧
      getRelativeLuminance ⟨255, 255, 255⟩ = 1 ∧
      getRelativeLuminance ⟨0, 0, 0⟩ = 0 := by
  have hf : parseColor "#FFFFFF" = some ⟨255, 255, 255⟩ := by decide
  have hb : parseColor "#000000" = some ⟨0, 0, 0⟩ := by decide
  refine ⟨_, by rw [analyzeContrast, hf, hb], ?_, ?_, ?_, ?_, ?_, lum_white, lum_black⟩
  · show roundTo2 (calculateContrastRatio ⟨255, 255, 255⟩ ⟨0, 0, 0⟩) = 21
    rw [ratio_white_black, roundTo2_21]
  · show calculateContrastRatio ⟨255, 255, 255⟩ ⟨0, 0, 0⟩ ≥ WCAG_AA_NORMAL
    rw [ratio_white_black, WCAG_AA_NORMAL]; norm_num
  · show calculateContrastRatio ⟨255, 255, 255⟩ ⟨0, 0, 0⟩ ≥ WCAG_AAA_NORMAL
    rw [ratio_white_black, WCAG_AAA_NORMAL]; norm_num
  · show calculateContrastRatio ⟨255, 255, 255⟩ ⟨0, 0, 0⟩ ≥ WCAG_AA_LARGE
    rw [ratio_white_black, WCAG_AA_LARGE]; norm_num
  · show calculateContrastRatio ⟨255, 255, 255⟩ ⟨0, 0, 0⟩ ≥ WCAG_AAA_LARGE
    rw [ratio_white_black, WCAG_AAA_LARGE]; norm_num

/-! ## C2 -/

lemma parseColorJs_rgb_iff (s : String) (rgb : RGB) :
    parseColorJs s = some (ParsedColor.rgb rgb) ↔ parseColor s = some rgb := by
  rw [parseColorJs, parseColor]
  split_ifs with h1 h2 h3
  · cases parseHexColor (jsTrimL s.toList) <;> simp
  · cases parseRgbColor (jsTrimL s.toList) <;> simp
  · cases namedColors.lookup (⟨lowerL (jsTrimL s.toList)⟩ : String) <;> simp
  · cases namedColors.lookup (⟨lowerL (jsTrimL s.toList)⟩ : String) <;> simp

/-- C2: the claim's failure condition is the parser's intent but not the
code's behavior.  The input `"constructor"` matches none of the
supported formats (hex, rgb()/rgba(), the ten named colors — the
intended table parser returns null on it), yet `analyzeContrast` does
not throw: the bracket lookup finds the inherited, truthy
`Object.prototype.constructor`, the non-color object passes the
`!fgRgb || !bgRgb` guard, and a NaN-filled result with all four flags
false is returned.  The actual error condition of the code is
`parseColorJs = none` on either side, and the spec's `"notacolor"`
example does throw. -/
theorem C2_constructor_escapes_parse_error :
    parseColor "constructor" = none ∧
    parseColorJs "constructor" = some ParsedColor.junk ∧
    analyzeContrastJs "constructor" "#fff" =
      ContrastOutcome.nanResult "constructor" "#fff" ∧
    analyzeContrastJs "notacolor" "#fff" = ContrastOutcome.error ∧
    (∀ fg bg, analyzeContrastJs fg bg = ContrastOutcome.error ↔
      parseColorJs fg = none ∨ parseColorJs bg = none) := by
  have hc : parseColorJs "constructor" = some ParsedColor.junk := by decide
  have hf : parseColorJs "#fff" = some (ParsedColor.rgb ⟨255, 255, 255⟩) := by decide
  have hn : parseColorJs "notacolor" = none := by decide
  refine ⟨by decide, hc, ?_, ?_, ?_⟩
  · simp [analyzeContrastJs, hc, hf]
  · simp [analyzeContrastJs, hn]
  · intro fg bg
    cases hfg : parseColorJs fg with
    | none => simp [analyzeContrastJs, hfg]
    | some p =>
      cases hbg : parseColorJs bg with
      | none => cases p <;> simp [analyzeContrastJs, hfg, hbg]
      | some q => cases p <;> cases q <;> simp [analyzeContrastJs, hfg, hbg]

/-! ## C4 -/

/-- C4: the contrast ratio is symmetric in its two arguments, and
swapping the foreground and background strings of `analyzeContrast`
yields the same `contrastRatio` field. -/
theorem C4_ratio_symmetric :
    (∀ a b : RGB, calculateContrastRatio a b = calculateContrastRatio b a) ∧
    ∀ fg bg, (analyzeContrast fg bg).map (fun r => r.contrastRatio) =
      (analyzeContrast bg fg).map (fun r => r.contrastRatio) := by
  have hsym : ∀ a b : RGB, calculateContrastRatio a b = calculateContrastRatio b a := by
    intro a b
    rw [calculateContrastRatio, calculateContrastRatio, max_comm, min_comm]
  refine ⟨hsym, ?_⟩
  intro fg bg
  cases hf : parseColor fg <;> cases hb : parseColor bg <;>
    simp [analyzeContrast, hf, hb]
  rw [hsym]

/-! ## C5 -/

lemma channelLin_nonneg (c : Int) (h : 0 ≤ c) : 0 ≤ channelLin c := by
  rw [channelLin]
  split_ifs with h1
  · have : (0 : ℝ) ≤ (c : ℝ) / 255 := by positivity
    positivity
  · apply Real.rpow_nonneg
    have : (0 : ℝ) ≤ (c : ℝ) / 255 := by positivity
    positivity

lemma lum_nonneg (rgb : RGB) (hr : 0 ≤ rgb.r) (hg : 0 ≤ rgb.g) (hb : 0 ≤ rgb.b) :
    0 ≤ getRelativeLuminance rgb := by
  rw [getRelativeLuminance]
  have h1 := channelLin_nonneg rgb.r hr
  have h2 := channelLin_nonneg rgb.g hg
  have h3 := channelLin_nonneg rgb.b hb
  positivity

lemma max_eq_min_iff_real {x y : ℝ} : max x y = min x y ↔ x = y := by
  constructor
  · intro h
    have hx : x ≤ y := le_trans (le_trans (le_max_left x y) h.le) (min_le_right x y)
    have hy : y ≤ x := le_trans (le_trans (le_max_right x y) h.le) (min_le_left x y)
    exact le_antisymm hx hy
  · intro h; rw [h, max_self, min_self]

/-- C5: for RGB triples (channel values nonnegative, as for every color
value) the contrast ratio is at least 1, equality holding exactly when
the two relative luminances coincide; in particular a color against
itself has ratio exactly 1. -/
theorem C5_ratio_at_least_one (a b : RGB)
    (har : 0 ≤ a.r) (hag : 0 ≤ a.g) (hab : 0 ≤ a.b)
    (hbr : 0 ≤ b.r) (hbg : 0 ≤ b.g) (hbb : 0 ≤ b.b) :
    1 ≤ calculateContrastRatio a b ∧
    (calculateContrastRatio a b = 1 ↔
      getRelativeLuminance a = getRelativeLuminance b) ∧
    calculateContrastRatio a a = 1 := by
  have la := lum_nonneg a har hag hab
  have lb := lum_nonneg b hbr hbg hbb
  set l1 := getRelativeLuminance a with hl1
  set l2 := getRelativeLuminance b with hl2
  have hminpos : 0 < min l1 l2 + 0.05 := by
    have : (0 : ℝ) ≤ min l1 l2 := le_min la lb
    linarith
  refine ⟨?_, ?_, ?_⟩
  · rw [calculateContrastRatio]
    rw [one_le_div hminpos]
    have := min_le_max (a := l1) (b := l2)
    linarith
  · rw [calculateContrastRatio]
    rw [div_eq_one_iff_eq (ne_of_gt hminpos)]
    constructor
    · intro h
      exact max_eq_min_iff_real.mp (by linarith)
    · intro h
      rw [show max l1 l2 = min l1 l2 from max_eq_min_iff_real.mpr h]
  · rw [calculateContrastRatio, max_self, min_self]
    have : 0 < l1 + 0.05 := by linarith
    exact div_self (ne_of_gt this)

/-- Witness for C5 at the concrete triples (3,4,5) and (3,4,5). -/
theorem C5_ratio_at_least_one_witness :
    1 ≤ calculateContrastRatio ⟨3, 4, 5⟩ ⟨3, 4, 5⟩ ∧
    (calculateContrastRatio ⟨3, 4, 5⟩ ⟨3, 4, 5⟩ = 1 ↔
      getRelativeLuminance ⟨3, 4, 5⟩ = getRelativeLuminance ⟨3, 4, 5⟩) ∧
    calculateContrastRatio ⟨3, 4, 5⟩ ⟨3, 4, 5⟩ = 1 :=
  C5_ratio_at_least_one ⟨3, 4, 5⟩ ⟨3, 4, 5⟩ (by decide) (by decide) (by decide)
    (by decide) (by decide) (by decide)

/-! ## C10 -/

lemma roundTo2_interval (x : ℝ) (h1 : 4.495 ≤ x) (h2 : x < 4.5) :
    roundTo2 x = 4.5 := by
  rw [roundTo2, round_eq]
  have : ⌊x * 100 + 1 / 2⌋ = (450 : ℤ) := by
    rw [Int.floor_eq_iff]
    constructor <;> [skip; skip] <;> push_cast <;> linarith
  rw [this]
  norm_num

/-- C10: on two parseable colors, `analyzeContrast` computes the four
pass flags from the unrounded ratio while the `contrastRatio` field is
rounded to 2 decimals; consequently an unrounded ratio in
`[4.495, 4.5)` reports `contrastRatio = 4.5` with `passesAA` false. -/
theorem C10_flags_use_unrounded_ratio (fg bg : String) (fgRgb bgRgb : RGB)
    (hf : parseColor fg = some fgRgb) (hb : parseColor bg = some bgRgb) :
    analyzeContrast fg bg = some
      { foreground := fg
        background := bg
        contrastRatio := roundTo2 (calculateContrastRatio fgRgb bgRgb)
        passesAA := calculateContrastRatio fgRgb bgRgb ≥ WCAG_AA_NORMAL
        passesAAA := calculateContrastRatio fgRgb bgRgb ≥ WCAG_AAA_NORMAL
        passesAALarge := calculateContrastRatio fgRgb bgRgb ≥ WCAG_AA_LARGE
        passesAAALarge := calculateContrastRatio fgRgb bgRgb ≥ WCAG_AAA_LARGE } ∧
    (4.495 ≤ calculateContrastRatio fgRgb bgRgb →
      calculateContrastRatio fgRgb bgRgb < 4.5 →
      roundTo2 (calculateContrastRatio fgRgb bgRgb) = 4.5 ∧
      ¬ (calculateContrastRatio fgRgb bgRgb ≥ WCAG_AA_NORMAL)) := by
  constructor
  · rw [analyzeContrast, hf, hb]
  · intro h1 h2
    refine ⟨roundTo2_interval _ h1 h2, ?_⟩
    rw [WCAG_AA_NORMAL]
    exact not_le.mpr h2

/-- Witness for C10 at the concrete colors white and black. -/
theorem C10_flags_use_unrounded_ratio_witness :
    analyzeContrast "#FFFFFF" "#000000" = some
      { foreground := "#FFFFFF"
        background := "#000000"
        contrastRatio := roundTo2 (calculateContrastRatio ⟨255, 255, 255⟩ ⟨0, 0, 0⟩)
        passesAA := calculateContrastRatio ⟨255, 255, 255⟩ ⟨0, 0, 0⟩ ≥ WCAG_AA_NORMAL
        passesAAA := calculateContrastRatio ⟨255, 255, 255⟩ ⟨0, 0, 0⟩ ≥ WCAG_AAA_NORMAL
        passesAALarge := calculateContrastRatio ⟨255, 255, 255⟩ ⟨0, 0, 0⟩ ≥ WCAG_AA_LARGE
        passesAAALarge :=
          calculateContrastRatio ⟨255, 255, 255⟩ ⟨0, 0, 0⟩ ≥ WCAG_AAA_LARGE } ∧
    (4.495 ≤ calculateContrastRatio ⟨255, 255, 255⟩ ⟨0, 0, 0⟩ →
      calculateContrastRatio ⟨255, 255, 255⟩ ⟨0, 0, 0⟩ < 4.5 →
      roundTo2 (calculateContrastRatio ⟨255, 255, 255⟩ ⟨0, 0, 0⟩) = 4.5 ∧
      ¬ (calculateContrastRatio ⟨255, 255, 255⟩ ⟨0, 0, 0⟩ ≥ WCAG_AA_NORMAL)) :=
  C10_flags_use_unrounded_ratio "#FFFFFF" "#000000" ⟨255, 255, 255⟩ ⟨0, 0, 0⟩
    (by decide) (by decide)

/-! ## C3 -/

lemma lookup_mem {α β : Type} [BEq α] [LawfulBEq α] (l : List (α × β)) (k : α) (v : β)
    (h : l.lookup k = some v) : (k, v) ∈ l := by
  induction l with
  | nil => simp [List.lookup] at h
  | cons a t ih =>
    rw [List.lookup] at h
    by_cases hk : k == a.1
    · rw [hk] at h
      simp only [Option.some.injEq] at h
      have hk2 := eq_of_beq hk
      have : (k, v) = a := by cases a; simp_all
      rw [this]
      exact List.mem_cons_self _ _
    · rw [Bool.of_not_eq_true hk] at h
      exact List.mem_cons_of_mem _ (ih h)

/-- C3 counterexample: the claim as stated fails on case: the value
`"POLITE"` lies outside the declared allowed values of the token-typed
attribute `aria-live`, yet `validateAttribute` reports it valid (the
source lowercases the value before the membership test). -/
theorem C3_counterexample_case_insensitive :
    (validateAttribute "aria-live" "POLITE").isValid = true ∧
    ARIA_PROPERTIES.lookup "aria-live" =
      some ⟨AriaType.token, some ["off", "polite", "assertive"]⟩ ∧
    ("POLITE" ∈ ["off", "polite", "assertive"]) = False := by
  refine ⟨by decide, by decide, by simp⟩

/-- C3 (amended): `validateAttribute` reports invalid whenever the
attribute name is absent from `ARIA_PROPERTIES`, and whenever the
lowercased value is outside the effective allowed set of a
token/tristate/boolean-typed attribute; `validateRole` reports invalid
whenever the role is absent from `VALID_ROLES`; the four concrete
examples behave as the spec states, the `aria-live`/`loud`
recommendation listing off, polite, assertive. -/
theorem C3_table_driven_validation :
    (∀ name value, ARIA_PROPERTIES.lookup name = none →
      (validateAttribute name value).isValid = false) ∧
    (∀ name value prop allowed, ARIA_PROPERTIES.lookup name = some prop →
      (prop.type = AriaType.token ∧ allowed = prop.allowedValues.getD [] ∨
       prop.type = AriaType.tristate ∧ allowed = ["true", "false", "mixed"] ∨
       prop.type = AriaType.boolean ∧ allowed = prop.allowedValues.getD ["true", "false"]) →
      ¬ allowed.contains (lowerStr value) →
      (validateAttribute name value).isValid = false) ∧
    (∀ role, ¬ VALID_ROLES.contains role → (validateRole role).isValid = false) ∧
    (validateAttribute "aria-live" "polite").isValid = true ∧
    (validateAttribute "aria-live" "loud").isValid = false ∧
    (validateAttribute "aria-live" "loud").recommendation =
      some "Value must be one of: off, polite, assertive" ∧
    (validateAttribute "aria-live" "loud").allowedValues =
      some ["off", "polite", "assertive"] ∧
    (validateRole "button").isValid = true ∧
    (validateRole "clickable").isValid = false := by
  refine ⟨?_, ?_, ?_, by decide, by decide, by decide, by decide, by decide, by decide⟩
  · intro name value h
    by_cases hpre : ['a', 'r', 'i', 'a', '-'] <+: name.data
    · simp [validateAttribute, hpre, h]
    · simp [validateAttribute, hpre]
  · intro name value prop allowed h htype hmem
    have hpre : ['a', 'r', 'i', 'a', '-'] <+: name.data := by
      have hall : ARIA_PROPERTIES.all
          (fun p => "aria-".toList.isPrefixOf p.1.toList) = true := by decide
      have := (List.all_eq_true.mp hall) _ (lookup_mem _ _ _ h)
      simpa using this
    rcases htype with ⟨ht, ha⟩ | ⟨ht, ha⟩ | ⟨ht, ha⟩ <;> subst ha <;>
      simp [validateAttribute, hpre, h, ht, validateTokenValue,
        validateTristateValue, validateBooleanValue] <;>
      simpa using hmem
  · intro role h
    simp only [validateRole]
    simpa using h

/-- Witness for C3 at concrete inputs: an unknown attribute name and the
value `"LOUD"`, outside the `aria-live` allowed set even after
lowercasing. -/
theorem C3_table_driven_validation_witness :
    (validateAttribute "aria-madeup" "x").isValid = false ∧
    (validateAttribute "aria-live" "LOUD").isValid = false ∧
    (validateRole "clickable2").isValid = false :=
  ⟨C3_table_driven_validation.1 "aria-madeup" "x" (by decide),
   C3_table_driven_validation.2.1 "aria-live" "LOUD"
     ⟨AriaType.token, some ["off", "polite", "assertive"]⟩
     ["off", "polite", "assertive"] (by decide) (Or.inl ⟨rfl, by decide⟩) (by decide),
   C3_table_driven_validation.2.2.1 "clickable2" (by decide)⟩

/-! ## C7 -/

/-- C7 counterexample: the pair `"1x"` is not valid hexadecimal, yet the
parser does not return null on `"#1x2y3z"`: JavaScript
`parseInt("1x", 16)` reads the longest digit prefix and yields 1, so the
parse succeeds with the triple (1, 2, 3). -/
theorem C7_counterexample_parseInt_prefix :
    parseHexColor "#1x2y3z".toList = some ⟨1, 2, 3⟩ ∧
    parseColor "#1x2y3z" = some ⟨1, 2, 3⟩ ∧
    "1x".toList.all isHexDigit = false := by
  refine ⟨by decide, by decide, by decide⟩

/-- C7 (amended): for every input beginning with `#`, the parser strips
the first `#`, duplicates each character of a length-3 string, requires
final length 6, and returns null exactly when some byte pair fails
JavaScript `parseInt(·, 16)` (no leading hexadecimal digit after
optional whitespace, sign and `0x` prefix); otherwise it returns the
triple of `parseInt` values of the pairs (which reads only the longest
hexadecimal prefix of a pair).  Hex expansion: `#abc` parses exactly as
`#aabbcc`. -/
theorem C7_hex_byte_pairs (l : List Char) (_hh : l.head? = some '#') :
    ((expandHex (dropFirstChar '#' l)).length ≠ 6 → parseHexColor l = none) ∧
    (∀ r g b,
      parseInt16 ((expandHex (dropFirstChar '#' l)).take 2) = some r →
      parseInt16 (((expandHex (dropFirstChar '#' l)).drop 2).take 2) = some g →
      parseInt16 (((expandHex (dropFirstChar '#' l)).drop 4).take 2) = some b →
      (expandHex (dropFirstChar '#' l)).length = 6 →
      parseHexColor l = some ⟨r, g, b⟩) ∧
    ((parseInt16 ((expandHex (dropFirstChar '#' l)).take 2) = none ∨
      parseInt16 (((expandHex (dropFirstChar '#' l)).drop 2).take 2) = none ∨
      parseInt16 (((expandHex (dropFirstChar '#' l)).drop 4).take 2) = none) →
      parseHexColor l = none) ∧
    (∀ a b c : Char,
      parseHexColor ['#', a, b, c] = parseHexColor ['#', a, a, b, b, c, c]) := by
  refine ⟨?_, ?_, ?_, ?_⟩
  · intro hlen
    simp [parseHexColor, hlen]
  · intro r g b h1 h2 h3 h6
    simp [parseHexColor, h6, h1, h2, h3]
  · intro hdisj
    rw [parseHexColor]
    by_cases h6 : (expandHex (dropFirstChar '#' l)).length = 6
    · rw [if_neg (by simp [h6])]
      rcases hdisj with h | h | h <;> rw [h] <;>
        cases parseInt16 ((expandHex (dropFirstChar '#' l)).take 2) <;>
        cases parseInt16 (((expandHex (dropFirstChar '#' l)).drop 2).take 2) <;>
        cases parseInt16 (((expandHex (dropFirstChar '#' l)).drop 4).take 2) <;>
        simp_all
    · rw [if_pos (by simpa using h6)]
  · intro a b c
    show parseHexColor ('#' :: [a, b, c]) = parseHexColor ('#' :: [a, a, b, b, c, c])
    simp only [parseHexColor, dropFirstChar, if_pos rfl, expandHex]
    norm_num

/-- Witness for C7 at the concrete input `"#aabbcc"`. -/
theorem C7_hex_byte_pairs_witness :
    parseHexColor "#aabbcc".toList = some ⟨170, 187, 204⟩ :=
  (C7_hex_byte_pairs "#aabbcc".toList (by decide)).2.1 170 187 204
    (by decide) (by decide) (by decide) (by decide)

/-! ## C8 -/

/-- C8 counterexample: the claim quantifies over every background color,
but `suggestAccessibleColor` returns null (no string) when the
background fails to parse. -/
theorem C8_counterexample_unparseable_background :
    suggestAccessibleColor "#000000" "notacolor" 4.5 = none := by
  have h : parseColor "notacolor" = none := by decide
  simp [suggestAccessibleColor, h]

section
open Classical

lemma suggestLoop_eq_find (orig : String) (bgRgb : RGB) (target : ℝ) :
    ∀ L : List ℝ, suggestLoop orig bgRgb target L =
      (L.map (adjustLightness orig)).find?
        (fun c => decide (∃ rgb, parseColor c = some rgb ∧
          calculateContrastRatio rgb bgRgb ≥ target)) := by
  intro L
  induction L with
  | nil => simp [suggestLoop]
  | cons a L ih =>
    rw [suggestLoop, List.map_cons, List.find?]
    cases hp : parseColor (adjustLightness orig a) with
    | some rgb =>
      by_cases hr : calculateContrastRatio rgb bgRgb ≥ target
      · have hd : ∃ rgb2, (some rgb : Option RGB) = some rgb2 ∧
            calculateContrastRatio rgb2 bgRgb ≥ target := ⟨rgb, rfl, hr⟩
        simp [hr, hd]
      · have hd : ¬ ∃ rgb2, (some rgb : Option RGB) = some rgb2 ∧
            calculateContrastRatio rgb2 bgRgb ≥ target := by
          rintro ⟨rgb2, h2, hr2⟩
          cases h2
          exact hr hr2
        simp [hr, hd, ih]
    | none =>
      have hd : ¬ ∃ rgb2, (none : Option RGB) = some rgb2 ∧
          calculateContrastRatio rgb2 bgRgb ≥ target := by
        rintro ⟨rgb2, h2, hr2⟩
        cases h2
      simp [hd, ih]

end

/-- C8 (amended): whenever the background color parses,
`suggestAccessibleColor` returns a string, namely the first color of the
lightness scan (each channel of the original scaled by `factor/100` with
rounding, via `adjustLightness`) whose ratio against the background
meets the target, and the black/white fallback chosen by background
luminance > 0.5 when the scan finds none. -/
theorem C8_suggest_scan_and_fallback (orig bg : String) (target : ℝ) (bgRgb : RGB)
    (h : parseColor bg = some bgRgb) :
    (∃ s, suggestAccessibleColor orig bg target = some s) ∧
    suggestAccessibleColor orig bg target = some
      ((suggestSpecScan orig bgRgb target).getD
        (if getRelativeLuminance bgRgb > 0.5 then "#000000" else "#FFFFFF")) := by
  have heq : suggestLoop orig bgRgb target lightnessSteps =
      suggestSpecScan orig bgRgb target :=
    suggestLoop_eq_find orig bgRgb target lightnessSteps
  simp only [suggestAccessibleColor, h]
  cases hs : suggestLoop orig bgRgb target lightnessSteps with
  | some c => exact ⟨⟨c, rfl⟩, by rw [← heq, hs]; rfl⟩
  | none => exact ⟨⟨_, rfl⟩, by rw [← heq, hs]; rfl⟩

/-- Witness for C8 at the concrete colors black on black (target 4.5). -/
theorem C8_suggest_scan_and_fallback_witness :
    (∃ s, suggestAccessibleColor "#000000" "#000000" 4.5 = some s) ∧
    suggestAccessibleColor "#000000" "#000000" 4.5 = some
      ((suggestSpecScan "#000000" ⟨0, 0, 0⟩ 4.5).getD
        (if getRelativeLuminance ⟨0, 0, 0⟩ > 0.5 then "#000000" else "#FFFFFF")) :=
  C8_suggest_scan_and_fallback "#000000" "#000000" 4.5 ⟨0, 0, 0⟩ (by decide)

/-! ## C6: regex semantics of the missing-`lang` check -/

lemma existsSuffix_of_suffix {p : List Char → Bool} {s l : List Char}
    (hp : p s = true) (hs : s <:+ l) : existsSuffix p l = true := by
  induction l with
  | nil => rw [List.suffix_nil] at hs; subst hs; simpa [existsSuffix] using hp
  | cons c r ih =>
    rw [existsSuffix, Bool.or_eq_true]
    rcases List.suffix_cons_iff.mp hs with h | h
    · subst h; exact Or.inl hp
    · exact Or.inr (ih h)

lemma existsSuffix_imp {p : List Char → Bool} {l : List Char}
    (h : existsSuffix p l = true) : ∃ s, s <:+ l ∧ p s = true := by
  induction l with
  | nil => exact ⟨[], List.suffix_refl [], by simpa [existsSuffix] using h⟩
  | cons c r ih =>
    rw [existsSuffix, Bool.or_eq_true] at h
    rcases h with h | h
    · exact ⟨c :: r, List.suffix_refl _, h⟩
    · obtain ⟨s, hs, hp⟩ := ih h
      exact ⟨s, hs.trans (List.suffix_cons c r), hp⟩

lemma wsEqAfter_complete {ws : List Char} (rest : List Char)
    (h : ∀ c ∈ ws, isJsWhitespace c = true) :
    wsEqAfter (ws ++ '=' :: rest) = true := by
  induction ws with
  | nil => simp [wsEqAfter]
  | cons c t ih =>
    rw [List.cons_append, wsEqAfter]
    split_ifs with h1 h2
    · rfl
    · exact ih (fun d hd => h d (List.mem_cons_of_mem _ hd))
    · exact absurd (h c (List.mem_cons_self _ _)) h2

lemma wsEqAfter_sound {l : List Char} (h : wsEqAfter l = true) :
    ∃ ws rest, l = ws ++ '=' :: rest ∧ ∀ c ∈ ws, isJsWhitespace c = true := by
  induction l with
  | nil => simp [wsEqAfter] at h
  | cons c r ih =>
    rw [wsEqAfter] at h
    split_ifs at h with h1 h2
    · exact ⟨[], r, by rw [h1]; rfl, by simp⟩
    · obtain ⟨ws, rest, he, hws⟩ := ih h
      refine ⟨c :: ws, rest, by rw [he]; rfl, ?_⟩
      intro d hd
      rcases List.mem_cons.mp hd with h3 | h3
      · subst h3; exact h2
      · exact hws d h3

lemma scanTagLang_complete (mid ws rest : List Char)
    (hmid : ∀ c ∈ mid, c ≠ '>') (hws : ∀ c ∈ ws, isJsWhitespace c = true) :
    scanTagLang (mid ++ 'l' :: 'a' :: 'n' :: 'g' :: (ws ++ '=' :: rest)) = true := by
  induction mid with
  | nil =>
    rw [List.nil_append, scanTagLang, Bool.or_eq_true]
    left
    rw [Bool.and_eq_true]
    constructor
    · simp [List.isPrefixOf]
    · simpa using wsEqAfter_complete rest hws
  | cons c t ih =>
    rw [List.cons_append, scanTagLang, Bool.or_eq_true]
    right
    rw [Bool.and_eq_true]
    refine ⟨by simpa using hmid c (List.mem_cons_self _ _), ?_⟩
    exact ih (fun d hd => hmid d (List.mem_cons_of_mem _ hd))

lemma scanTagLang_sound {l : List Char} (h : scanTagLang l = true) :
    ∃ mid ws rest, l = mid ++ 'l' :: 'a' :: 'n' :: 'g' :: (ws ++ '=' :: rest) ∧
      (∀ c ∈ mid, c ≠ '>') ∧ (∀ c ∈ ws, isJsWhitespace c = true) := by
  induction l with
  | nil => simp [scanTagLang] at h
  | cons c r ih =>
    rw [scanTagLang, Bool.or_eq_true] at h
    rcases h with h | h
    · rw [Bool.and_eq_true] at h
      obtain ⟨hpre, hafter⟩ := h
      have : ['l', 'a', 'n', 'g'] <+: c :: r := by simpa using hpre
      obtain ⟨t, ht⟩ := this
      have hcr : c :: r = 'l' :: 'a' :: 'n' :: 'g' :: t := ht.symm
      rw [hcr] at hafter ⊢
      obtain ⟨ws, rest, he, hws⟩ := wsEqAfter_sound (by simpa using hafter)
      exact ⟨[], ws, rest, by rw [he]; rfl, by simp, hws⟩
    · rw [Bool.and_eq_true] at h
      obtain ⟨hc, hr⟩ := h
      obtain ⟨mid, ws, rest, he, hmid, hws⟩ := ih hr
      refine ⟨c :: mid, ws, rest, by rw [he]; rfl, ?_, hws⟩
      intro d hd
      rcases List.mem_cons.mp hd with h3 | h3
      · subst h3; simpa using hc
      · exact hmid d h3

lemma testHtmlOpen_complete {text pre mid post : List Char}
    (he : text = pre ++ '<' :: 'h' :: 't' :: 'm' :: 'l' :: (mid ++ '>' :: post)) :
    testHtmlOpen text = true := by
  rw [testHtmlOpen]
  apply existsSuffix_of_suffix (s := '<' :: 'h' :: 't' :: 'm' :: 'l' :: (mid ++ '>' :: post))
  · rw [Bool.and_eq_true]
    constructor
    · simp [List.isPrefixOf]
    · simp
  · exact ⟨pre, he.symm⟩

lemma testHtmlLang_complete {text pre mid ws rest : List Char}
    (he : text = pre ++ '<' :: 'h' :: 't' :: 'm' :: 'l' ::
      (mid ++ 'l' :: 'a' :: 'n' :: 'g' :: (ws ++ '=' :: rest)))
    (hmid : ∀ c ∈ mid, c ≠ '>') (hws : ∀ c ∈ ws, isJsWhitespace c = true) :
    testHtmlLang text = true := by
  rw [testHtmlLang]
  apply existsSuffix_of_suffix
    (s := '<' :: 'h' :: 't' :: 'm' :: 'l' ::
      (mid ++ 'l' :: 'a' :: 'n' :: 'g' :: (ws ++ '=' :: rest)))
  · rw [Bool.and_eq_true]
    constructor
    · simp [List.isPrefixOf]
    · simpa using scanTagLang_complete mid ws rest hmid hws
  · exact ⟨pre, he.symm⟩

lemma testHtmlLang_sound {text : List Char} (h : testHtmlLang text = true) :
    ∃ pre mid ws rest, text = pre ++ '<' :: 'h' :: 't' :: 'm' :: 'l' ::
      (mid ++ 'l' :: 'a' :: 'n' :: 'g' :: (ws ++ '=' :: rest)) ∧
      (∀ c ∈ mid, c ≠ '>') ∧ (∀ c ∈ ws, isJsWhitespace c = true) := by
  rw [testHtmlLang] at h
  obtain ⟨s, hs, hp⟩ := existsSuffix_imp h
  rw [Bool.and_eq_true] at hp
  obtain ⟨hpre, hscan⟩ := hp
  have : ['<', 'h', 't', 'm', 'l'] <+: s := by simpa using hpre
  obtain ⟨t, ht⟩ := this
  obtain ⟨pre, hpre2⟩ := hs
  obtain ⟨mid, ws, rest, he, hmid, hws⟩ := scanTagLang_sound
    (show scanTagLang (s.drop 5) = true from hscan)
  refine ⟨pre, mid, ws, rest, ?_, hmid, hws⟩
  have hdrop : s.drop 5 = t := by rw [← ht]; rfl
  rw [hdrop] at he
  rw [← hpre2, ← ht, he]
  rfl

lemma auditHTMLLine_no_lang (idx : Nat) (line : List Char) :
    ∀ i ∈ auditHTMLLine idx line, i.type ≠ IssueType.missingLangAttribute := by
  intro i hi
  rw [auditHTMLLine] at hi
  simp only [List.mem_append] at hi
  rcases hi with ((((((h | h) | h) | h) | h) | h) | h)
  · split at h <;> simp_all
  · split at h <;> simp_all
  · split at h <;> simp_all
  · split at h <;> simp_all
  · rcases hfr : findFirstOpt tabindexAt line with _ | ds <;> rw [hfr] at h
    · simp at h
    · simp only [] at h
      split at h <;> simp_all
  · rw [List.mem_filterMap] at h
    obtain ⟨m, hm, hf⟩ := h
    split at hf
    · simp at hf
    · simp only [Option.some.injEq] at hf
      subst hf
      simp
  · rcases hfr : findFirstOpt roleAt line with _ | role <;> rw [hfr] at h
    · simp at h
    · simp only [] at h
      split at h <;> simp_all

/-- C6 counterexample: the claim as stated fails on a document with two
`<html` tags: `"<html lang=a><html>"` contains an opening `<html>` tag
with no `lang=` inside it, yet the audit emits no missing-lang issue,
because the guard regex `<html[^>]*lang\s*=` matches the other tag. -/
theorem C6_counterexample_second_html_tag :
    (∃ pre mid post, "<html lang=a><html>".toList =
        pre ++ '<' :: 'h' :: 't' :: 'm' :: 'l' :: (mid ++ '>' :: post) ∧
        (∀ c ∈ mid, c ≠ '>') ∧
        ¬ ∃ m1 ws r1, mid = m1 ++ 'l' :: 'a' :: 'n' :: 'g' :: (ws ++ '=' :: r1)) ∧
    (auditHTML "<html lang=a><html>".toList).filter
      (fun i => i.type == IssueType.missingLangAttribute) = [] := by
  constructor
  · refine ⟨"<html lang=a>".toList, [], [], by decide, by simp, ?_⟩
    rintro ⟨m1, ws, r1, h⟩
    cases m1 <;> simp_all
  · decide

/-- C6 (amended): for every document whose text contains an opening
`<html …>` tag and in which no occurrence of `<html` is followed, before
the next `>`, by `lang` and (whitespace-separated) `=` — i.e. the guard
regex `<html[^>]*lang\s*=` has no match anywhere — the markup audit
emits exactly one `missing-lang-attribute` issue, severity serious, WCAG
level A, at line 0 and column 0, regardless of document length. -/
theorem C6_missing_lang_exactly_once (text : List Char)
    (h1 : ∃ pre mid post, text = pre ++ '<' :: 'h' :: 't' :: 'm' :: 'l' ::
        (mid ++ '>' :: post) ∧ ∀ c ∈ mid, c ≠ '>')
    (h2 : ¬ ∃ pre mid ws rest, text = pre ++ '<' :: 'h' :: 't' :: 'm' :: 'l' ::
        (mid ++ 'l' :: 'a' :: 'n' :: 'g' :: (ws ++ '=' :: rest)) ∧
        (∀ c ∈ mid, c ≠ '>') ∧ (∀ c ∈ ws, isJsWhitespace c = true)) :
    (auditHTML text).filter (fun i => i.type == IssueType.missingLangAttribute) =
      [⟨IssueType.missingLangAttribute, Severity.serious, WCAGLevel.A, 0, 0⟩] := by
  obtain ⟨pre, mid, post, he, hmid⟩ := h1
  have hopen : testHtmlOpen text = true := testHtmlOpen_complete he
  have hlang : testHtmlLang text = false := by
    cases hl : testHtmlLang text
    · rfl
    · exact absurd (testHtmlLang_sound hl) h2
  rw [auditHTML, List.filter_append, hopen, hlang]
  have hnil : ((splitOnNl text).enum.flatMap
      (fun p => auditHTMLLine p.1 p.2)).filter
        (fun i => i.type == IssueType.missingLangAttribute) = [] := by
    rw [List.filter_eq_nil_iff]
    intro a ha
    rw [List.mem_flatMap] at ha
    obtain ⟨p, hp, hap⟩ := ha
    simpa using auditHTMLLine_no_lang p.1 p.2 a hap
  rw [hnil]
  simp

/-- Witness for C6 at the concrete document
`"<html><body>hello</body></html>"`. -/
theorem C6_missing_lang_exactly_once_witness :
    (auditHTML "<html><body>hello</body></html>".toList).filter
      (fun i => i.type == IssueType.missingLangAttribute) =
      [⟨IssueType.missingLangAttribute, Severity.serious, WCAGLevel.A, 0, 0⟩] :=
  C6_missing_lang_exactly_once "<html><body>hello</body></html>".toList
    ⟨[], [], "<body>hello</body></html>".toList, by decide, by simp⟩
    (fun ⟨pre, mid, ws, rest, he, hmid, hws⟩ => by
      have hcomp := testHtmlLang_complete he hmid hws
      have hfalse : testHtmlLang "<html><body>hello</body></html>".toList = false := by
        decide
      rw [hfalse] at hcomp
      exact Bool.false_ne_true hcomp)

/-! ## C9: stylesheet scanner captures background-only blocks -/

lemma splitOnNl_no_nl {a : List Char} (h : '\n' ∉ a) : splitOnNl a = [a] := by
  induction a with
  | nil => rfl
  | cons c r ih =>
    have hc : ¬ c = '\n' := by
      intro he
      subst he
      exact h (List.mem_cons_self _ _)
    rw [splitOnNl, if_neg hc, ih (fun hr => h (List.mem_cons_of_mem c hr))]

lemma splitOnNl_append {a : List Char} (b : List Char) (h : '\n' ∉ a) :
    splitOnNl (a ++ '\n' :: b) = a :: splitOnNl b := by
  induction a with
  | nil => rw [List.nil_append, splitOnNl, if_pos rfl]
  | cons c r ih =>
    have hc : ¬ c = '\n' := by
      intro he
      subst he
      exact h (List.mem_cons_self _ _)
    rw [List.cons_append, splitOnNl, if_neg hc,
      ih (fun hr => h (List.mem_cons_of_mem c hr))]

lemma takeWhile_before_semi {v : List Char} (w : List Char) (h : ∀ c ∈ v, c ≠ ';') :
    (v ++ ';' :: w).takeWhile (fun d => d != ';') = v := by
  induction v with
  | nil => simp
  | cons c t ih =>
    rw [List.cons_append, List.takeWhile_cons]
    have hc : (c != ';') = true := by
      simpa using h c (List.mem_cons_self _ _)
    rw [hc, ih (fun d hd => h d (List.mem_cons_of_mem c hd)), if_pos rfl]

lemma afterKeyRun_colon_space {v : List Char} (h : ∀ c ∈ v, c ≠ ';') :
    afterKeyRun (':' :: ' ' :: (v ++ [';'])) = some (' ' :: v) := by
  rw [afterKeyRun, if_pos rfl]
  have htw : (' ' :: (v ++ [';'])).takeWhile (fun d => d != ';') = ' ' :: v := by
    rw [List.takeWhile_cons]
    rw [show ((' ' : Char) != ';') = true from by decide,
      takeWhile_before_semi [] h, if_pos rfl]
  simp only [htw, List.isEmpty_cons]
  rfl


lemma ffo_step {α : Type} {f : List Char → Option α} {c : Char} {rest : List Char}
    (h : f (c :: rest) = none) : findFirstOpt f (c :: rest) = findFirstOpt f rest := by
  rw [findFirstOpt, h]

lemma ffo_hit {α : Type} {f : List Char → Option α} {c : Char} {rest : List Char}
    {x : α} (h : f (c :: rest) = some x) : findFirstOpt f (c :: rest) = some x := by
  rw [findFirstOpt, h]

lemma colorCaptureAt_hit {v : List Char} (h : ∀ c ∈ v, c ≠ ';') :
    colorCaptureAt ('c' :: 'o' :: 'l' :: 'o' :: 'r' :: ':' :: ' ' :: (v ++ [';'])) =
      some (' ' :: v) := by
  rw [colorCaptureAt, if_pos (by simp +decide [caselessPrefix])]
  exact afterKeyRun_colon_space h

lemma colorCapture_line1 {v : List Char} (h : ∀ c ∈ v, c ≠ ';') :
    findFirstOpt colorCaptureAt ("  background-color: ".toList ++ (v ++ [';'])) =
      some (' ' :: v) := by
  show findFirstOpt colorCaptureAt
    (' ' :: ' ' :: 'b' :: 'a' :: 'c' :: 'k' :: 'g' :: 'r' :: 'o' :: 'u' :: 'n' ::
     'd' :: '-' :: 'c' :: 'o' :: 'l' :: 'o' :: 'r' :: ':' :: ' ' :: (v ++ [';'])) =
    some (' ' :: v)
  rw [ffo_step (by simp +decide [colorCaptureAt, caselessPrefix]),
      ffo_step (by simp +decide [colorCaptureAt, caselessPrefix]),
      ffo_step (by simp +decide [colorCaptureAt, caselessPrefix]),
      ffo_step (by simp +decide [colorCaptureAt, caselessPrefix]),
      ffo_step (by simp +decide [colorCaptureAt, caselessPrefix]),
      ffo_step (by simp +decide [colorCaptureAt, caselessPrefix]),
      ffo_step (by simp +decide [colorCaptureAt, caselessPrefix]),
      ffo_step (by simp +decide [colorCaptureAt, caselessPrefix]),
      ffo_step (by simp +decide [colorCaptureAt, caselessPrefix]),
      ffo_step (by simp +decide [colorCaptureAt, caselessPrefix]),
      ffo_step (by simp +decide [colorCaptureAt, caselessPrefix]),
      ffo_step (by simp +decide [colorCaptureAt, caselessPrefix]),
      ffo_step (by simp +decide [colorCaptureAt, caselessPrefix]),
      ffo_hit (colorCaptureAt_hit h)]

lemma bgCaptureAt_hit {v : List Char} (h : ∀ c ∈ v, c ≠ ';') :
    bgCaptureAt ('b' :: 'a' :: 'c' :: 'k' :: 'g' :: 'r' :: 'o' :: 'u' :: 'n' :: 'd' ::
      '-' :: 'c' :: 'o' :: 'l' :: 'o' :: 'r' :: ':' :: ' ' :: (v ++ [';'])) =
      some (' ' :: v) := by
  rw [bgCaptureAt, if_pos (by simp +decide [caselessPrefix])]
  have h1 : (if caselessPrefix "-color".toList
        (('b' :: 'a' :: 'c' :: 'k' :: 'g' :: 'r' :: 'o' :: 'u' :: 'n' :: 'd' ::
          '-' :: 'c' :: 'o' :: 'l' :: 'o' :: 'r' :: ':' :: ' ' :: (v ++ [';'])).drop 10)
      then afterKeyRun (('b' :: 'a' :: 'c' :: 'k' :: 'g' :: 'r' :: 'o' :: 'u' :: 'n' :: 'd' ::
          '-' :: 'c' :: 'o' :: 'l' :: 'o' :: 'r' :: ':' :: ' ' :: (v ++ [';'])).drop 16)
      else none) = some (' ' :: v) := by
    rw [if_pos (by simp +decide [caselessPrefix])]
    exact afterKeyRun_colon_space h
  rw [h1]

lemma bgCapture_line1 {v : List Char} (h : ∀ c ∈ v, c ≠ ';') :
    findFirstOpt bgCaptureAt ("  background-color: ".toList ++ (v ++ [';'])) =
      some (' ' :: v) := by
  show findFirstOpt bgCaptureAt
    (' ' :: ' ' :: 'b' :: 'a' :: 'c' :: 'k' :: 'g' :: 'r' :: 'o' :: 'u' :: 'n' ::
     'd' :: '-' :: 'c' :: 'o' :: 'l' :: 'o' :: 'r' :: ':' :: ' ' :: (v ++ [';'])) =
    some (' ' :: v)
  rw [ffo_step (by simp +decide [bgCaptureAt, caselessPrefix]),
      ffo_step (by simp +decide [bgCaptureAt, caselessPrefix]),
      ffo_hit (bgCaptureAt_hit h)]


lemma jsTrimL_cons_space (v : List Char) : jsTrimL (' ' :: v) = jsTrimL v := by
  rw [jsTrimL, jsTrimL, List.dropWhile_cons]
  rw [show isJsWhitespace ' ' = true from by decide]
  simp

lemma extract_c9 {v : List Char}
    (h : ∀ c ∈ v, c ≠ ';' ∧ c ≠ '\n' ∧ c ≠ '{' ∧ c ≠ '}')
    (hne : jsTrimL v ≠ []) :
    extractColorPairs (".x \x7b".toList ++ '\n' ::
        (("  background-color: ".toList ++ (v ++ [';'])) ++ '\n' :: ['}'])) =
      [⟨0, some ⟨jsTrimL v⟩, some ⟨jsTrimL v⟩,
        String.intercalate "\n"
          [(⟨".x \x7b".toList⟩ : String),
           ⟨"  background-color: ".toList ++ (v ++ [';'])⟩, ⟨['}']⟩]⟩] := by
  have hsemi : ∀ c ∈ v, c ≠ ';' := fun c hc => (h c hc).1
  have hn1 : '\n' ∉ "  background-color: ".toList ++ (v ++ [';']) := by
    intro hm
    rcases List.mem_append.mp hm with hm | hm
    · revert hm; decide
    · rcases List.mem_append.mp hm with hm | hm
      · exact (h _ hm).2.1 rfl
      · revert hm; decide
  have hlines : splitOnNl (".x \x7b".toList ++ '\n' ::
      (("  background-color: ".toList ++ (v ++ [';'])) ++ '\n' :: ['}'])) =
      [".x \x7b".toList, "  background-color: ".toList ++ (v ++ [';']), ['}']] := by
    rw [splitOnNl_append _ (by decide), splitOnNl_append _ hn1,
      splitOnNl_no_nl (by decide)]
  rw [extractColorPairs, hlines]
  have hb1 : (("  background-color: ".toList ++ (v ++ [';'])).any (· = '{')) = false := by
    rw [List.any_append, List.any_append]
    rw [show ("  background-color: ".toList.any (· = '{')) = false from by decide]
    rw [show ([';'].any (· = '{')) = false from by decide]
    have : (v.any (· = '{')) = false := by
      rw [List.any_eq_false]
      intro c hc
      simpa using (h c hc).2.2.1
    rw [this]
    rfl
  have hb2 : (("  background-color: ".toList ++ (v ++ [';'])).any (· = '}')) = false := by
    rw [List.any_append, List.any_append]
    rw [show ("  background-color: ".toList.any (· = '}')) = false from by decide]
    rw [show ([';'].any (· = '}')) = false from by decide]
    have : (v.any (· = '}')) = false := by
      rw [List.any_eq_false]
      intro c hc
      simpa using (h c hc).2.2.2
    rw [this]
    rfl
  rw [show ([".x \x7b".toList, "  background-color: ".toList ++ (v ++ [';']),
      (['}'] : List Char)].enum) =
      [(0, ".x \x7b".toList), (1, "  background-color: ".toList ++ (v ++ [';'])),
       (2, (['}'] : List Char))] from rfl]
  rw [cpLoop]
  simp only [show ((".x \x7b".toList).any (· = '{')) = true from by decide,
    show findFirstOpt colorCaptureAt ".x \x7b".toList = none from by decide,
    show findFirstOpt bgCaptureAt ".x \x7b".toList = none from by decide,
    show ((".x \x7b".toList).any (· = '}')) = false from by decide,
    if_true, if_false, Bool.false_and, Bool.false_or, Bool.and_self]
  rw [cpLoop]
  simp only [hb1, hb2, colorCapture_line1 hsemi, bgCapture_line1 hsemi,
    jsTrimL_cons_space, if_false, Bool.false_and]
  have htr : jsTruthy (some (⟨jsTrimL v⟩ : String)) = true := by
    rw [jsTruthy]
    simp only [bne_iff_ne, ne_eq]
    intro he
    exact hne (congrArg String.data he)
  rw [cpLoop]
  simp only [show ((['}'] : List Char).any (· = '{')) = false from by decide,
    show findFirstOpt colorCaptureAt ['}'] = none from by decide,
    show findFirstOpt bgCaptureAt ['}'] = none from by decide,
    show ((['}'] : List Char).any (· = '}')) = true from by decide,
    htr, Bool.or_self, Bool.and_self, if_true, if_false]
  rw [cpLoop]
  simp [htr]

lemma hexDigitVal_lt {c : Char} {d : Nat} (h : hexDigitVal c = some d) : d < 16 := by
  rw [hexDigitVal] at h
  split_ifs at h with h1 h2 h3 <;> simp only [Option.some.injEq] at h <;> subst h <;>
    omega

lemma parseHexNat_single_lt {c : Char} {n : Nat} (h : parseHexNat [c] = some n) :
    n < 16 := by
  rw [parseHexNat] at h
  split_ifs at h with hd
  · simp only [Option.some.injEq] at h
    subst h
    rw [isHexDigit] at hd
    obtain ⟨d, hdd⟩ := Option.isSome_iff_exists.mp hd
    rw [hexAcc, hdd]
    simpa [hexAcc] using hexDigitVal_lt hdd

lemma parseHexNat_le1_lt {l : List Char} {n : Nat} (hl : l.length ≤ 1)
    (h : parseHexNat l = some n) : n < 16 := by
  cases l with
  | nil => simp [parseHexNat] at h
  | cons c rest =>
    cases rest with
    | nil => exact parseHexNat_single_lt h
    | cons d t => simp at hl

lemma strip0x_short {l : List Char} (hl : l.length ≤ 1) : strip0x l = l := by
  rw [strip0x.eq_def]
  split <;> simp_all

lemma parseInt16_pair_lb {l : List Char} (hl : l.length ≤ 2) {n : Int}
    (h : parseInt16 l = some n) : -15 ≤ n := by
  have hm : (l.dropWhile isJsWhitespace).length ≤ 2 :=
    le_trans (List.dropWhile_sublist (p := isJsWhitespace) (l := l)).length_le hl
  rw [parseInt16] at h
  split at h
  · next rest heq =>
    rw [heq] at hm
    simp only [List.length_cons] at hm
    have hr1 : rest.length ≤ 1 := by omega
    rw [strip0x_short hr1] at h
    cases hk : parseHexNat rest with
    | none => rw [hk] at h; simp at h
    | some k =>
      rw [hk] at h
      simp at h
      have := parseHexNat_le1_lt hr1 hk
      omega
  · next rest heq =>
    cases hk : parseHexNat (strip0x rest) with
    | none => rw [hk] at h; simp at h
    | some k =>
      rw [hk] at h
      simp at h
      omega
  · next heq h1 h2 =>
    cases hk : parseHexNat (strip0x (l.dropWhile isJsWhitespace)) with
    | none => rw [hk] at h; simp at h
    | some k =>
      rw [hk] at h
      simp at h
      omega


lemma parseHexColor_lb {l : List Char} {rgb : RGB} (h : parseHexColor l = some rgb) :
    -15 ≤ rgb.r ∧ -15 ≤ rgb.g ∧ -15 ≤ rgb.b := by
  rw [parseHexColor] at h
  split_ifs at h with h6
  split at h
  · next r g b hr hg hb =>
    simp only [Option.some.injEq] at h
    subst h
    have l1 : ((expandHex (dropFirstChar '#' l)).take 2).length ≤ 2 := by
      simp [List.length_take]
    have l2 : (((expandHex (dropFirstChar '#' l)).drop 2).take 2).length ≤ 2 := by
      simp [List.length_take]
    have l3 : (((expandHex (dropFirstChar '#' l)).drop 4).take 2).length ≤ 2 := by
      simp [List.length_take]
    exact ⟨parseInt16_pair_lb l1 hr, parseInt16_pair_lb l2 hg, parseInt16_pair_lb l3 hb⟩
  · simp at h

lemma parseRgbColor_lb {l : List Char} {rgb : RGB} (h : parseRgbColor l = some rgb) :
    -15 ≤ rgb.r ∧ -15 ≤ rgb.g ∧ -15 ≤ rgb.b := by
  rw [parseRgbColor] at h
  obtain ⟨t, ht, he⟩ := Option.map_eq_some'.mp h
  subst he
  refine ⟨?_, ?_, ?_⟩ <;> simp <;> omega

lemma parseColor_lb {s : String} {rgb : RGB} (h : parseColor s = some rgb) :
    -15 ≤ rgb.r ∧ -15 ≤ rgb.g ∧ -15 ≤ rgb.b := by
  rw [parseColor] at h
  split_ifs at h with h1 h2
  · exact parseHexColor_lb h
  · exact parseRgbColor_lb h
  · have hmem := lookup_mem _ _ _ h
    have hall : namedColors.all
        (fun p => decide (-15 ≤ p.2.r) && decide (-15 ≤ p.2.g) && decide (-15 ≤ p.2.b)) =
        true := by decide
    have := (List.all_eq_true.mp hall) _ hmem
    simp at this
    exact ⟨this.1.1, this.1.2, this.2⟩

lemma channelLin_lb {c : Int} (h : -15 ≤ c) : -(1 / 200 : ℝ) ≤ channelLin c := by
  rw [channelLin]
  split_ifs with h1
  · have hc : (-15 : ℝ) ≤ (c : ℝ) := by exact_mod_cast h
    have key : (-15 : ℝ) / 255 / 12.92 ≤ (c : ℝ) / 255 / 12.92 := by gcongr
    have e : (-(1 / 200) : ℝ) ≤ (-15 : ℝ) / 255 / 12.92 := by norm_num
    linarith
  · push_neg at h1
    have hpos : (0 : ℝ) ≤ (c : ℝ) / 255 + 0.055 := by linarith
    have hb : (0 : ℝ) ≤ ((c : ℝ) / 255 + 0.055) / 1.055 :=
      div_nonneg hpos (by norm_num)
    have := Real.rpow_nonneg hb (2.4 : ℝ)
    linarith

lemma lum_add_pos {rgb : RGB} (hr : -15 ≤ rgb.r) (hg : -15 ≤ rgb.g)
    (hb : -15 ≤ rgb.b) : 0 < getRelativeLuminance rgb + 0.05 := by
  rw [getRelativeLuminance]
  have h1 := channelLin_lb hr
  have h2 := channelLin_lb hg
  have h3 := channelLin_lb hb
  nlinarith

lemma ratio_self_eq_one {rgb : RGB} (h : getRelativeLuminance rgb + 0.05 ≠ 0) :
    calculateContrastRatio rgb rgb = 1 := by
  rw [calculateContrastRatio, max_self, min_self]
  exact div_self h

lemma roundTo2_one : roundTo2 1 = 1 := by
  rw [roundTo2, show (1 : ℝ) * 100 = ((100 : ℤ) : ℝ) by norm_num, round_intCast]
  norm_num

/-- C9 counterexample: the claim as stated fails on a block whose
`background-color:` value trims to the empty string.  In the block
`.x { background-color: ; }` the declaration regex matches (capturing
the single space before the semicolon, which trims to `""`), but the
push guard `(currentFg || currentBg)` tests JavaScript truthiness and
the empty string is falsy, so no pair is captured and no issue is
emitted. -/
theorem C9_counterexample_empty_value :
    findFirstOpt bgCaptureAt
      ("  background-color: ".toList ++ (([] : List Char) ++ [';'])) = some [' '] ∧
    extractColorPairs (".x \x7b".toList ++ '\n' ::
        (("  background-color: ".toList ++ (([] : List Char) ++ [';'])) ++
          '\n' :: ['}'])) = [] ∧
    auditCSS (".x \x7b".toList ++ '\n' ::
        (("  background-color: ".toList ++ (([] : List Char) ++ [';'])) ++
          '\n' :: ['}'])) = [] := by
  have he : extractColorPairs (".x \x7b".toList ++ '\n' ::
      (("  background-color: ".toList ++ (([] : List Char) ++ [';'])) ++
        '\n' :: ['}'])) = [] := by decide
  refine ⟨by decide, he, ?_⟩
  rw [auditCSS, he, List.filterMap_nil]

/-- C9 (amended): in the stylesheet scanner, for a CSS block whose only
color declaration is a `background-color:` declaration with a value that
is nonempty after trimming, the foreground regex
`/color\s*:\s*([^;]+)/i` also matches inside the text
`background-color:`, so the block is captured with foreground equal to
background, and when the value parses, `auditCSS` emits one
`low-color-contrast` issue whose reported ratio is 1.  (A value trimming
to the empty string is falsy in the `(currentFg || currentBg)` push
guard, so such a block produces no pair — see the counterexample.) -/
theorem C9_bg_only_block (v : List Char)
    (h : ∀ c ∈ v, c ≠ ';' ∧ c ≠ '\n' ∧ c ≠ '{' ∧ c ≠ '}')
    (hne : jsTrimL v ≠ []) :
    extractColorPairs (".x \x7b".toList ++ '\n' ::
        (("  background-color: ".toList ++ (v ++ [';'])) ++ '\n' :: ['}'])) =
      [⟨0, some ⟨jsTrimL v⟩, some ⟨jsTrimL v⟩,
        String.intercalate "\n"
          [(⟨".x \x7b".toList⟩ : String),
           ⟨"  background-color: ".toList ++ (v ++ [';'])⟩, ⟨['}']⟩]⟩] ∧
    (∀ rgb, parseColor ⟨jsTrimL v⟩ = some rgb →
      auditCSS (".x \x7b".toList ++ '\n' ::
          (("  background-color: ".toList ++ (v ++ [';'])) ++ '\n' :: ['}'])) =
        [⟨IssueType.lowColorContrast, Severity.serious, WCAGLevel.AA, 0, 0,
          String.intercalate "\n"
            [(⟨".x \x7b".toList⟩ : String),
             ⟨"  background-color: ".toList ++ (v ++ [';'])⟩, ⟨['}']⟩], 1⟩]) := by
  refine ⟨extract_c9 h hne, ?_⟩
  intro rgb hp
  rw [auditCSS, extract_c9 h hne]
  have hns : ¬((⟨jsTrimL v⟩ : String) = "" ∨ (⟨jsTrimL v⟩ : String) = "") := by
    rintro (he | he) <;> exact hne (congrArg String.data he)
  have hana : analyzeContrast ⟨jsTrimL v⟩ ⟨jsTrimL v⟩ = some
      { foreground := ⟨jsTrimL v⟩
        background := ⟨jsTrimL v⟩
        contrastRatio := roundTo2 (calculateContrastRatio rgb rgb)
        passesAA := calculateContrastRatio rgb rgb ≥ WCAG_AA_NORMAL
        passesAAA := calculateContrastRatio rgb rgb ≥ WCAG_AAA_NORMAL
        passesAALarge := calculateContrastRatio rgb rgb ≥ WCAG_AA_LARGE
        passesAAALarge := calculateContrastRatio rgb rgb ≥ WCAG_AAA_LARGE } := by
    rw [analyzeContrast, hp]
  obtain ⟨b1, b2, b3⟩ := parseColor_lb hp
  have hpos := lum_add_pos b1 b2 b3
  have hr1 : calculateContrastRatio rgb rgb = 1 := ratio_self_eq_one (ne_of_gt hpos)
  have hno : ¬ ((1 : ℝ) ≥ WCAG_AA_NORMAL) := by
    rw [WCAG_AA_NORMAL]
    norm_num
  simp only [List.filterMap_cons, List.filterMap_nil, hns, hana, hr1, roundTo2_one,
    hno, if_false]


/-- Witness for C9 at the concrete declaration value `#fff`. -/
theorem C9_bg_only_block_witness :
    extractColorPairs (".x \x7b".toList ++ '\n' ::
        (("  background-color: ".toList ++ ("#fff".toList ++ [';'])) ++ '\n' :: ['}'])) =
      [⟨0, some ⟨jsTrimL "#fff".toList⟩, some ⟨jsTrimL "#fff".toList⟩,
        String.intercalate "\n"
          [(⟨".x \x7b".toList⟩ : String),
           ⟨"  background-color: ".toList ++ ("#fff".toList ++ [';'])⟩, ⟨['}']⟩]⟩] ∧
    (∀ rgb, parseColor ⟨jsTrimL "#fff".toList⟩ = some rgb →
      auditCSS (".x \x7b".toList ++ '\n' ::
          (("  background-color: ".toList ++ ("#fff".toList ++ [';'])) ++ '\n' :: ['}'])) =
        [⟨IssueType.lowColorContrast, Severity.serious, WCAGLevel.AA, 0, 0,
          String.intercalate "\n"
            [(⟨".x \x7b".toList⟩ : String),
             ⟨"  background-color: ".toList ++ ("#fff".toList ++ [';'])⟩, ⟨['}']⟩], 1⟩]) :=
  C9_bg_only_block "#fff".toList (by decide) (by decide)

end A11y
